import Mathlib

/-!
Verification development for the NTU Sports membership & bookings
reconciliation engine (membership_checker.py).

Modelling conventions:
* pandas rows are Lean structures; a column that can be NaN is an `Option`.
* Python floats (amounts, fees, the similarity cutoff) are exact rationals.
* Python strings are Lean `String`s; the string primitives used by the code
  (`lower`, `strip`, `replace`, lexicographic `<`) are spelled out on
  `List Char` so their behaviour is explicit.
* The wall-clock timestamp written into the report is passed to the summary
  generator as an explicit `now : String` input.
-/

namespace NTU

/-- The whitespace set stripped by Python `str.strip()`. -/
def pySpace (c : Char) : Bool :=
  c = ' ' || c = '\t' || c = '\n' || c = '\r' || c = '\x0b' || c = '\x0c'

/-- Python `str.strip()`: drop leading and trailing whitespace. -/
def pyStrip (l : List Char) : List Char :=
  ((l.dropWhile pySpace).reverse.dropWhile pySpace).reverse

/-- Python `str.replace("  ", " ")`: one left-to-right pass replacing each
non-overlapping occurrence of two consecutive spaces by a single space. -/
def collapseOnce : List Char → List Char
  | ' ' :: ' ' :: rest => ' ' :: collapseOnce rest
  | c :: rest => c :: collapseOnce rest
  | [] => []

/-- Python `str.lower()` (ASCII letters; the data uses ASCII names). -/
def pyLower (l : List Char) : List Char := l.map Char.toLower

/-- `normalize_name` from membership_checker.py:
`"" if pd.isna(name) else str(name).lower().strip().replace("  ", " ")`. -/
def normalize_name : Option String → String
  | none => ""
  | some s => ⟨collapseOnce (pyStrip (pyLower s.data))⟩

/-- Length of the longest common prefix of two character lists. -/
def cpl : List Char → List Char → Nat
  | a :: as, b :: bs => if a = b then cpl as bs + 1 else 0
  | _, _ => 0

/-- difflib `SequenceMatcher.find_longest_match` on junk-free sequences
(names are far below the 200-character threshold of the autojunk
heuristic): the longest matching block `(i, j, size)`; ties favour the
earliest start in `a`, then the earliest start in `b`. -/
def bestBlock (a b : List Char) : Nat × Nat × Nat :=
  (List.range (a.length + 1)).foldl (fun best i =>
    (List.range (b.length + 1)).foldl (fun best j =>
      let k := cpl (a.drop i) (b.drop j)
      if best.2.2 < k then (i, j, k) else best) best) (0, 0, 0)

/-- Total size of the difflib matching blocks.  The recursion consumes fuel;
every recursive call strictly decreases `a.length + b.length`, so the fuel
`a.length + b.length + 1` supplied by `matchSize` is never exhausted. -/
def matchSizeF : Nat → List Char → List Char → Nat
  | 0, _, _ => 0
  | fuel + 1, a, b =>
    let t := bestBlock a b
    if t.2.2 = 0 then 0
    else t.2.2 + matchSizeF fuel (a.take t.1) (b.take t.2.1)
       + matchSizeF fuel (a.drop (t.1 + t.2.2)) (b.drop (t.2.1 + t.2.2))

def matchSize (a b : List Char) : Nat := matchSizeF (a.length + b.length + 1) a b

/-- difflib `SequenceMatcher(None, a, b).ratio()`: `2*M / (len(a)+len(b))`,
as an exact rational. -/
def simScore (a b : String) : Rat :=
  ((2 * matchSize a.data b.data : Nat) : Rat) / ((a.length + b.length : Nat) : Rat)

/-- `difflib.get_close_matches(word, possibilities, n=1, cutoff)`:
score every candidate `x` by `SequenceMatcher(a := x, b := word).ratio()`
(the quick-ratio pretests are upper bounds of the true score, so the gate is
exactly `cutoff ≤ score`), then return the candidate of the largest
`(score, candidate)` pair, compared the way `heapq.nlargest` compares Python
tuples: by score first, then lexicographically by the candidate string. -/
def getCloseMatch1 (word : String) (possibilities : List String) (cutoff : Rat) :
    Option String :=
  let scored := possibilities.filterMap (fun x =>
    if cutoff ≤ simScore x word then some (simScore x word, x) else none)
  (scored.foldl (fun best rx =>
      match best with
      | none => some rx
      | some b => if b.1 < rx.1 ∨ (b.1 = rx.1 ∧ b.2 < rx.2) then some rx else some b)
    none).map Prod.snd

/-- Python's (non-strict) ordering on `(score, candidate)` tuples, as
compared by `heapq.nlargest`: by score, then lexicographically by string. -/
def tupBelow (p q : Rat × String) : Prop :=
  p.1 < q.1 ∨ (p.1 = q.1 ∧ (p.2 < q.2 ∨ p.2 = q.2))

/-! ### Data model -/

structure Member where
  studentID : String
  fullName : Option String
  team : String
  isSelectedOfficialTeam : String
  deriving Repr, DecidableEq

structure Payment where
  studentID : Option String
  fullName : Option String
  amount : Rat
  paymentDate : Option String
  deriving Repr, DecidableEq

structure Booking where
  bookingID : String
  fullName : Option String
  bookingStart : Option String
  hours : Rat
  amountPaid : Rat
  deriving Repr, DecidableEq

inductive PaidStatus
  | paid
  | underpaid
  | unpaid
  deriving Repr, DecidableEq

inductive MatchKind
  | byStudentID
  | byFuzzyName
  | unmatched
  deriving Repr, DecidableEq

/-- A row of the `selected_players` working table. -/
structure Account where
  studentID : String
  fullName : Option String
  team : String
  normalizedName : String
  paidAmount : Rat
  paidStatus : PaidStatus
  outstanding : Rat
  paymentDate : Option String
  deriving Repr, DecidableEq

/-- A row of the `resolved_payments` audit trail. -/
structure Resolved where
  payment : Payment
  normalizedName : String
  resolvedStudentID : Option String
  matchKind : MatchKind
  deriving Repr, DecidableEq

structure Suggestion where
  enteredName : Option String
  suggestedName : Option String
  deriving Repr, DecidableEq

def ANNUAL_FEE : Rat := 120
def HOURLY_RATE : Rat := 5
def FUZZY_CUTOFF : Rat := 0.86

def initAccount (m : Member) : Account :=
  { studentID := m.studentID, fullName := m.fullName, team := m.team,
    normalizedName := normalize_name m.fullName,
    paidAmount := 0, paidStatus := .unpaid, outstanding := ANNUAL_FEE,
    paymentDate := none }

/-- `members_df[members_df['IsSelectedOfficialTeam'] == 'Yes']` with the
result columns initialised. -/
def selectedOf (members : List Member) : List Account :=
  (members.filter (fun m => m.isSelectedOfficialTeam == "Yes")).map initAccount

/-- One accumulation into an account: add the amount, recompute
`Outstanding = max(0, ANNUAL_FEE - PaidAmount)`, overwrite `PaymentDate`. -/
def applyPayment (p : Payment) (a : Account) : Account :=
  let paid := a.paidAmount + p.amount
  { a with
    paidAmount := paid,
    outstanding := max 0 (ANNUAL_FEE - paid),
    paymentDate := p.paymentDate }

/-- `selected_players.at[match.index[0], ...]`: mutate the first row
satisfying the predicate. -/
def updateFirst (P : Account → Bool) (f : Account → Account) : List Account → List Account
  | [] => []
  | a :: l => if P a then f a :: l else a :: updateFirst P f l

def mkResolved (p : Payment) : Resolved :=
  { payment := p, normalizedName := normalize_name p.fullName,
    resolvedStudentID := none, matchKind := .unmatched }

structure Pass1State where
  accounts : List Account
  matched : List Nat
  resolved : List Resolved
  deriving Repr

/-- First pass of `reconcile_memberships`: match by StudentID. -/
def pass1Step (st : Pass1State) (ip : Nat × Payment) : Pass1State :=
  match ip.2.studentID with
  | none => { st with resolved := st.resolved ++ [mkResolved ip.2] }
  | some sid =>
    match st.accounts.find? (fun a => a.studentID == sid) with
    | none => { st with resolved := st.resolved ++ [mkResolved ip.2] }
    | some a0 =>
      { accounts := updateFirst (fun a => a.studentID == sid) (applyPayment ip.2) st.accounts,
        matched := st.matched ++ [ip.1],
        resolved := st.resolved ++
          [{ mkResolved ip.2 with
              resolvedStudentID := some a0.studentID,
              matchKind := .byStudentID }] }

structure Pass2State where
  accounts : List Account
  matched : List Nat
  resolved : List Resolved
  suggestions : List Suggestion
  deriving Repr

/-- Second pass of `reconcile_memberships`: fuzzy match by name for payments
not consumed in the first pass; `names` is the static snapshot
`selected_players['NormalizedName'].tolist()`. -/
def pass2Step (names : List String) (st : Pass2State) (ip : Nat × Payment) : Pass2State :=
  if st.matched.contains ip.1 then st
  else
    if normalize_name ip.2.fullName = "" then st
    else
      match getCloseMatch1 (normalize_name ip.2.fullName) names FUZZY_CUTOFF with
      | none => st
      | some m =>
        match st.accounts.find? (fun a => a.normalizedName == m) with
        | none => st
        | some a0 =>
          { accounts := updateFirst (fun a => a.normalizedName == m) (applyPayment ip.2)
              st.accounts,
            matched := st.matched ++ [ip.1],
            resolved := st.resolved.map (fun rp =>
              if rp.normalizedName == normalize_name ip.2.fullName &&
                  rp.matchKind == MatchKind.unmatched then
                { rp with resolvedStudentID := some a0.studentID, matchKind := .byFuzzyName }
              else rp),
            suggestions := st.suggestions ++
              (if normalize_name ip.2.fullName ≠ m then
                [{ enteredName := ip.2.fullName, suggestedName := a0.fullName }] else []) }

/-- The membership test of the `paid_not_selected` block: the payment's
StudentID is some member's id, or (failing that) the payment has a name and
its normalisation is among the members' normalised names. -/
def paymentKnown (memberIDs : List String) (memberNames : List String) (p : Payment) : Bool :=
  (match p.studentID with
   | some sid => memberIDs.contains sid
   | none => false) ||
  (match p.fullName with
   | some _ => memberNames.contains (normalize_name p.fullName)
   | none => false)

structure ReconcileResult where
  selected : List Account
  fuzzySuggestions : List Suggestion
  paidNotSelected : List Payment
  unmatchedPayments : List Resolved
  resolvedPayments : List Resolved
  deriving Repr, DecidableEq

/-- Final status classification of `reconcile_memberships`. -/
def statusOf (paid : Rat) : PaidStatus :=
  if ANNUAL_FEE ≤ paid then .paid else if 0 < paid then .underpaid else .unpaid

/-- `reconcile_memberships(members_df, payments_df)`. -/
def reconcile (members : List Member) (payments : List Payment) : ReconcileResult :=
  let accounts0 := selectedOf members
  let st1 := payments.enum.foldl pass1Step ⟨accounts0, [], []⟩
  let names := st1.accounts.map (·.normalizedName)
  let st2 := payments.enum.foldl (pass2Step names)
    ⟨st1.accounts, st1.matched, st1.resolved, []⟩
  let final := st2.accounts.map (fun a => { a with paidStatus := statusOf a.paidAmount })
  let memberIDs := members.map (·.studentID)
  let memberNames := members.map (fun m => normalize_name m.fullName)
  let paidNot := (payments.enum.filter (fun ip =>
      !(st2.matched.contains ip.1) && !(paymentKnown memberIDs memberNames ip.2))).map Prod.snd
  { selected := final,
    fuzzySuggestions := st2.suggestions,
    paidNotSelected := paidNot,
    unmatchedPayments := st2.resolved.filter (fun rp => rp.matchKind == MatchKind.unmatched),
    resolvedPayments := st2.resolved }

/-! ### External bookings -/

structure VBooking where
  booking : Booking
  expected : Rat
  underpaid : Bool
  missingPayment : Bool
  deriving Repr, DecidableEq

def annotateBooking (b : Booking) : VBooking :=
  let expected := b.hours * HOURLY_RATE
  { booking := b, expected := expected,
    underpaid := decide (b.amountPaid < expected - 0.01),
    missingPayment := decide (b.amountPaid ≤ 0) }

/-- `validate_external_bookings(external_df)`: the annotated collection and
the issues subset. -/
def validate_external_bookings (bs : List Booking) : List VBooking × List VBooking :=
  let all := bs.map annotateBooking
  (all, all.filter (fun vb => vb.underpaid || vb.missingPayment))

/-! ### Summary -/

structure SummaryData where
  totalSelected : Nat
  paidCount : Nat
  underpaidCount : Nat
  unpaidCount : Nat
  mismatchRate : Rat
  membershipExpected : Rat
  membershipCollected : Rat
  totalBookings : Nat
  externalExpected : Rat
  externalCollected : Rat
  externalIssuesCount : Nat
  nonSelectedPaymentsCount : Nat
  unmatchedPaymentsCount : Nat
  deriving Repr, DecidableEq

def ratSum (l : List Rat) : Rat := l.foldl (· + ·) 0

/-- The statistics computed by `generate_summary`. -/
def summaryData (selected : List Account) (paidNot : List Payment)
    (unmatched : List Resolved) (external : List VBooking) (issues : List VBooking) :
    SummaryData :=
  let total := selected.length
  let paidCount := (selected.filter (fun a => a.paidStatus == PaidStatus.paid)).length
  let underCount := (selected.filter (fun a => a.paidStatus == PaidStatus.underpaid)).length
  let unpaidCount := (selected.filter (fun a => a.paidStatus == PaidStatus.unpaid)).length
  { totalSelected := total, paidCount := paidCount, underpaidCount := underCount,
    unpaidCount := unpaidCount,
    mismatchRate :=
      if 0 < total then ((underCount + unpaidCount : Nat) : Rat) / (total : Rat) * 100 else 0,
    membershipExpected := (total : Rat) * ANNUAL_FEE,
    membershipCollected := ratSum (selected.map (·.paidAmount)),
    totalBookings := external.length,
    externalExpected := ratSum (external.map (·.expected)),
    externalCollected := ratSum (external.map (fun vb => vb.booking.amountPaid)),
    externalIssuesCount := issues.length,
    nonSelectedPaymentsCount := paidNot.length,
    unmatchedPaymentsCount := unmatched.length }

/-- Round to the nearest integer, halves to even (Python float formatting,
idealised over exact rationals). -/
def roundHalfEven (x : Rat) : Int :=
  let f := x.floor
  let r := x - (f : Rat)
  if r < 1/2 then f else if (1/2 : Rat) < r then f + 1 else if f % 2 = 0 then f else f + 1

/-- Insert thousands separators; the input is the digit list least
significant first, and the output stays least significant first. -/
def group3 : List Char → List Char
  | d1 :: d2 :: d3 :: d4 :: rest => d1 :: d2 :: d3 :: ',' :: group3 (d4 :: rest)
  | l => l

def commaDigits (n : Nat) : String := ⟨(group3 (toString n).data.reverse).reverse⟩

def pad2 (n : Nat) : String := if n < 10 then "0" ++ toString n else toString n

/-- Python format spec `,.2f`. -/
def fmtMoney (q : Rat) : String :=
  let n := roundHalfEven (q * 100)
  let sign := if n < 0 then "-" else ""
  let m := n.natAbs
  sign ++ commaDigits (m / 100) ++ "." ++ pad2 (m % 100)

/-- Python format spec `.1f`. -/
def fmtTenth (q : Rat) : String :=
  let n := roundHalfEven (q * 10)
  let sign := if n < 0 then "-" else ""
  let m := n.natAbs
  sign ++ toString (m / 10) ++ "." ++ toString (m % 10)

/-- `generate_summary(...)`; the `datetime.now().strftime(...)` timestamp is
the explicit `now` argument. -/
def generate_summary (selected : List Account) (paidNot : List Payment)
    (unmatched : List Resolved) (external : List VBooking) (issues : List VBooking)
    (now : String) : String :=
  let d := summaryData selected paidNot unmatched external issues
  let rest :=
    "\n\nMEMBERSHIP SUMMARY:\nTotal selected members: " ++ toString d.totalSelected ++
    "\n- Paid in full: " ++ toString d.paidCount ++
    "\n- Underpaid: " ++ toString d.underpaidCount ++
    "\n- Unpaid: " ++ toString d.unpaidCount ++
    "\nMismatch rate: " ++ fmtTenth d.mismatchRate ++ "%" ++
    "\n\nMembership revenue:\n- Expected: £" ++ fmtMoney d.membershipExpected ++
    "\n- Collected: £" ++ fmtMoney d.membershipCollected ++
    "\n- Difference: £" ++ fmtMoney (d.membershipCollected - d.membershipExpected) ++
    "\n\nEXTERNAL BOOKINGS:\nTotal bookings: " ++ toString d.totalBookings ++
    "\n- Expected: £" ++ fmtMoney d.externalExpected ++
    "\n- Collected: £" ++ fmtMoney d.externalCollected ++
    "\n- Difference: £" ++ fmtMoney (d.externalCollected - d.externalExpected) ++
    "\n- Bookings with issues: " ++ toString d.externalIssuesCount ++
    "\n\nADDITIONAL FINDINGS:\n- Payments from non-selected players: " ++
    toString d.nonSelectedPaymentsCount ++
    "\n- Unmatched payments (need review): " ++ toString d.unmatchedPaymentsCount ++ "\n"
  "NTU Sports - Membership & Bookings Reconciliation\nGenerated: " ++ (now ++ rest)

structure RunOutputs where
  selected : List Account
  fuzzySuggestions : List Suggestion
  paidNotSelected : List Payment
  unmatchedPayments : List Resolved
  resolvedPayments : List Resolved
  externalAll : List VBooking
  externalIssues : List VBooking
  summary : String
  deriving Repr, DecidableEq

/-- One batch run of `main` (the in-memory computation: reconcile, validate,
summarise), as a function of the three input collections and the clock. -/
def runAll (members : List Member) (payments : List Payment) (bookings : List Booking)
    (now : String) : RunOutputs :=
  let r := reconcile members payments
  let v := validate_external_bookings bookings
  { selected := r.selected, fuzzySuggestions := r.fuzzySuggestions,
    paidNotSelected := r.paidNotSelected, unmatchedPayments := r.unmatchedPayments,
    resolvedPayments := r.resolvedPayments,
    externalAll := v.1, externalIssues := v.2,
    summary := generate_summary r.selected r.paidNotSelected r.unmatchedPayments v.1 v.2 now }

/-! ### State-free characterisations of the two passes

`exactIdx` / `fuzzyIdx` name, per payment, the position (in the initial
selected-players table) of the account that the corresponding pass
accumulates the payment into; they are proved below to characterise the
stateful folds. -/

/-- Position of the account hit by the exact pass for payment `p`, if any:
the first selected row whose StudentID equals the payment's. -/
def exactIdx (accounts0 : List Account) (p : Payment) : Option Nat :=
  p.studentID.bind (fun sid => accounts0.findIdx? (fun a => a.studentID == sid))

/-- Position of the account a fuzzy lookup of normalised name `q` targets:
the first selected row carrying the name chosen by `getCloseMatch1` against
the snapshot of all selected normalised names; empty names never match. -/
def fuzzyNameIdx (accounts : List Account) (q : String) : Option Nat :=
  if q = "" then none
  else
    match getCloseMatch1 q (accounts.map (·.normalizedName)) FUZZY_CUTOFF with
    | none => none
    | some m => accounts.findIdx? (fun a => a.normalizedName == m)

/-- Position of the account hit by the fuzzy pass for payment `p`, if any:
only payments missed by the exact pass participate. -/
def fuzzyIdx (accounts0 : List Account) (p : Payment) : Option Nat :=
  if (exactIdx accounts0 p).isSome then none
  else fuzzyNameIdx accounts0 (normalize_name p.fullName)

/-- The payments accumulated into the account at position `k`, in processing
order: the exact-pass matches in input order, then the fuzzy-pass matches in
input order. -/
def matchedTo (accounts0 : List Account) (payments : List Payment) (k : Nat) : List Payment :=
  payments.filter (fun p => exactIdx accounts0 p == some k) ++
  payments.filter (fun p => fuzzyIdx accounts0 p == some k)

def amountSum (ps : List Payment) : Rat := ratSum (ps.map (·.amount))

/-- Fold a list of payments into one account, in order. -/
def payFold (a : Account) (ps : List Payment) : Account :=
  ps.foldl (fun a p => applyPayment p a) a

/-- The audit-trail row produced by the exact pass for payment `p`. -/
def rp1 (accounts : List Account) (p : Payment) : Resolved :=
  match p.studentID with
  | none => mkResolved p
  | some sid =>
    match accounts.find? (fun a => a.studentID == sid) with
    | none => mkResolved p
    | some a0 =>
      { mkResolved p with resolvedStudentID := some a0.studentID, matchKind := .byStudentID }

/-- The fuzzy-pass rewrite of one audit-trail row carrying normalised name
`rp.normalizedName`. -/
def markRp (accounts : List Account) (rp : Resolved) : Resolved :=
  { rp with
    resolvedStudentID :=
      ((fuzzyNameIdx accounts rp.normalizedName).bind (fun k => accounts[k]?)).map (·.studentID),
    matchKind := .byFuzzyName }

/-- Whether the fuzzy pass consumes the indexed payment `ip`, relative to the
exact-pass matched set `M1`. -/
def pass2Cond (accounts : List Account) (M1 : List Nat) (ip : Nat × Payment) : Bool :=
  !(M1.contains ip.1) && (fuzzyNameIdx accounts (normalize_name ip.2.fullName)).isSome

/-- The fuzzy suggestion emitted for payment `p` when its fuzzy lookup hits
and altered the normalised name. -/
def sugRaw (accounts : List Account) (p : Payment) : Option Suggestion :=
  match fuzzyNameIdx accounts (normalize_name p.fullName) with
  | none => none
  | some k =>
    match accounts[k]? with
    | none => none
    | some a0 =>
      if normalize_name p.fullName ≠ a0.normalizedName then
        some { enteredName := p.fullName, suggestedName := a0.fullName }
      else none

/-- The fuzzy suggestion emitted for payment `p` over the whole run. -/
def sugFor (accounts : List Account) (p : Payment) : Option Suggestion :=
  if (exactIdx accounts p).isSome then none else sugRaw accounts p

/-- The final audit-trail row for payment `p`. -/
def rpFinal (accounts : List Account) (p : Payment) : Resolved :=
  match exactIdx accounts p with
  | some _ => rp1 accounts p
  | none =>
    match fuzzyIdx accounts p with
    | none => mkResolved p
    | some k =>
      { mkResolved p with
        resolvedStudentID := (accounts[k]?).map (·.studentID),
        matchKind := .byFuzzyName }

/-- Closed form of the fuzzy-pass state after processing the indexed
payments `P`, starting from the exact-pass state
`⟨accounts1, M1, resolved1, []⟩`. -/
def pass2Sim (accounts1 : List Account) (M1 : List Nat) (resolved1 : List Resolved)
    (P : List (Nat × Payment)) : Pass2State :=
  { accounts := accounts1.enum.map (fun ka =>
      payFold ka.2 ((P.filter (fun ip =>
        !(M1.contains ip.1) &&
          (fuzzyNameIdx accounts1 (normalize_name ip.2.fullName) == some ka.1))).map (·.2))),
    matched := M1 ++ (P.filter (pass2Cond accounts1 M1)).map (·.1),
    resolved := resolved1.map (fun rp =>
      if rp.matchKind == MatchKind.unmatched &&
          P.any (fun ip => pass2Cond accounts1 M1 ip &&
            (normalize_name ip.2.fullName == rp.normalizedName)) then
        markRp accounts1 rp
      else rp),
    suggestions := P.filterMap (fun ip =>
      if pass2Cond accounts1 M1 ip then sugRaw accounts1 ip.2 else none) }

/-- The fully reconciled account at position `k`. -/
def finalAccount (accounts0 : List Account) (payments : List Payment) (k : Nat)
    (a : Account) : Account :=
  let ms := matchedTo accounts0 payments k
  { a with
    paidAmount := amountSum ms,
    outstanding := max 0 (ANNUAL_FEE - amountSum ms),
    paymentDate := match ms.getLast? with | none => none | some p => p.paymentDate,
    paidStatus := statusOf (amountSum ms) }

/-- Sum of the amounts of the resolved payments attributed to StudentID `sid`. -/
def resolvedAmountTo (rps : List Resolved) (sid : String) : Rat :=
  ratSum (((rps.filter (fun rp => rp.resolvedStudentID == some sid)).map
    (fun rp => rp.payment.amount)))

/-- `true` iff the character list contains two consecutive spaces. -/
def hasDoubleSpace : List Char → Bool
  | ' ' :: ' ' :: _ => true
  | _ :: rest => hasDoubleSpace rest
  | [] => false

/-! ### Concrete rows used by counterexamples and witnesses -/

def mA : Member :=
  { studentID := "S1", fullName := some "Ann Lee", team := "A", isSelectedOfficialTeam := "Yes" }

def mA2 : Member :=
  { studentID := "S1", fullName := some "Bea Cruz", team := "A", isSelectedOfficialTeam := "Yes" }

def mX : Member :=
  { studentID := "S1", fullName := some "Abcdefgx", team := "A", isSelectedOfficialTeam := "Yes" }

def mZ : Member :=
  { studentID := "S2", fullName := some "Abcdefgz", team := "A", isSelectedOfficialTeam := "Yes" }

def mNS : Member :=
  { studentID := "S9", fullName := some "John Smith", team := "B", isSelectedOfficialTeam := "No" }

def pNeg : Payment :=
  { studentID := some "S1", fullName := some "Ann Lee", amount := -5,
    paymentDate := some "2024-01-01" }

def pPos : Payment :=
  { studentID := some "S1", fullName := some "Ann Lee", amount := 50,
    paymentDate := some "2024-05-05" }

def pEarly : Payment :=
  { studentID := some "S1", fullName := some "Ann Lee", amount := 30,
    paymentDate := some "2024-01-15" }

def pY : Payment :=
  { studentID := none, fullName := some "Abcdefgy", amount := 10,
    paymentDate := some "2024-02-02" }

def pJohn : Payment :=
  { studentID := none, fullName := some "John Smith", amount := 50,
    paymentDate := some "2024-03-03" }

def bD : Booking :=
  { bookingID := "B1", fullName := some "Guest", bookingStart := some "2024-01-01T10:00",
    hours := 3, amountPaid := 10 }

/-- The reconciled account produced for `mA` when there are no payments. -/
def c6acc : Account :=
  { studentID := "S1", fullName := some "Ann Lee", team := "A",
    normalizedName := normalize_name (some "Ann Lee"),
    paidAmount := 0, paidStatus := statusOf 0, outstanding := ANNUAL_FEE,
    paymentDate := none }

/-! ## Theorems -/

/-- `collapseOnce` halves (rounding up) each run of spaces: a run of `k`
spaces becomes `⌈k/2⌉` spaces, so runs of four or more leave consecutive
spaces behind. -/
theorem collapse_replicate (k : Nat) :
    collapseOnce (List.replicate k ' ') = List.replicate ((k + 1) / 2) ' ' := by
  induction k using Nat.strong_induction_on with
  | _ k ih =>
    match k with
    | 0 => rfl
    | 1 => rfl
    | Nat.succ (Nat.succ k) =>
      rw [List.replicate_succ, List.replicate_succ]
      show ' ' :: collapseOnce (List.replicate k ' ') = _
      rw [ih k (by omega)]
      have h2 : (k + 1 + 1 + 1) / 2 = (k + 1) / 2 + 1 := by omega
      rw [h2, List.replicate_succ]

/-- C4 (counterexample): on the input `"a    b"` (four internal spaces) the
normalised name is `"a  b"`, which still contains two consecutive spaces —
refuting the claim that the result never contains two consecutive spaces. -/
theorem C4_counterexample :
    normalize_name (some "a    b") = "a  b" ∧
    hasDoubleSpace (normalize_name (some "a    b")).data = true := by
  constructor
  · rfl
  · decide

/-- C4 (amended): `normalize_name` maps an absent name to `""` and otherwise
lowercases, strips leading/trailing whitespace, and performs a single
left-to-right pass replacing each non-overlapping double-space occurrence by
one space; consequently a run of `k` spaces shrinks to `⌈k/2⌉` spaces (so the
result may still contain two consecutive spaces when the input had a run of
four or more). -/
theorem C4_amended :
    normalize_name none = "" ∧
    (∀ s : String, (normalize_name (some s)).data = collapseOnce (pyStrip (pyLower s.data))) ∧
    (∀ k : Nat, collapseOnce (List.replicate k ' ') = List.replicate ((k + 1) / 2) ' ') :=
  ⟨rfl, fun _ => rfl, collapse_replicate⟩

/-- C7: every annotated booking is flagged underpaid iff its amount is below
`hours × rate − 0.01`, flagged missing-payment iff its amount is ≤ 0, and
belongs to the issues subset iff one of the two flags is set; the issues
subset only contains annotated bookings. -/
theorem C7_booking_flags (bs : List Booking) :
    (∀ vb ∈ (validate_external_bookings bs).1,
      (vb.underpaid = true ↔ vb.booking.amountPaid < vb.booking.hours * HOURLY_RATE - 0.01) ∧
      (vb.missingPayment = true ↔ vb.booking.amountPaid ≤ 0) ∧
      (vb ∈ (validate_external_bookings bs).2 ↔
        vb.underpaid = true ∨ vb.missingPayment = true)) ∧
    (∀ vb ∈ (validate_external_bookings bs).2, vb ∈ (validate_external_bookings bs).1) := by
  constructor
  · intro vb hvb
    have hmap : vb ∈ bs.map annotateBooking := hvb
    obtain ⟨b, _, rfl⟩ := List.mem_map.mp hmap
    refine ⟨?_, ?_, ?_⟩
    · simp [annotateBooking]
    · simp [annotateBooking]
    · constructor
      · intro hmem
        have := (List.mem_filter.mp hmem).2
        simpa [Bool.or_eq_true] using this
      · intro hor
        exact List.mem_filter.mpr ⟨hmap, by simpa [Bool.or_eq_true] using hor⟩
  · intro vb hvb
    exact (List.mem_filter.mp hvb).1

/-- C7 (witness): Scenario D — a booking of 3 hours paid £10 (expected £15)
is flagged underpaid, not missing-payment, and lands in the issues subset. -/
theorem C7_witness :
    (annotateBooking bD).underpaid = true ∧
    (annotateBooking bD).missingPayment = false ∧
    annotateBooking bD ∈ (validate_external_bookings [bD]).2 := by
  have hmem : annotateBooking bD ∈ (validate_external_bookings [bD]).1 := by
    simp [validate_external_bookings]
  have h := (C7_booking_flags [bD]).1 (annotateBooking bD) hmem
  have hu : (annotateBooking bD).underpaid = true := by
    refine h.1.mpr ?_
    norm_num [bD, annotateBooking, HOURLY_RATE]
  have hm : (annotateBooking bD).missingPayment = false := by
    have := h.2.1
    rcases hb : (annotateBooking bD).missingPayment with _ | _
    · rfl
    · exfalso
      have hle := this.mp hb
      norm_num [bD, annotateBooking] at hle
  exact ⟨hu, hm, h.2.2.mpr (Or.inl hu)⟩

/-- The three payment statuses partition the accounts: the underpaid and
unpaid counts add up to the count of accounts that are not fully paid. -/
theorem statusCountsPartition (l : List Account) :
    (l.filter (fun a => a.paidStatus == PaidStatus.underpaid)).length +
      (l.filter (fun a => a.paidStatus == PaidStatus.unpaid)).length =
      (l.filter (fun a => !(a.paidStatus == PaidStatus.paid))).length := by
  induction l with
  | nil => rfl
  | cons a l ih =>
    cases h : a.paidStatus <;> simp [List.filter_cons, h, ih] <;> omega

/-- C8: the summary's mismatch rate is `(underpaid + unpaid) / total × 100`
when the number of obligated payers is positive and `0` when it is zero (the
division is guarded, so an empty roster produces `0`, not an error), and the
numerator counts exactly the accounts that are not fully paid. -/
theorem C8_mismatch_rate (selected : List Account) (paidNot : List Payment)
    (unmatched : List Resolved) (external : List VBooking) (issues : List VBooking) :
    (summaryData selected paidNot unmatched external issues).mismatchRate =
      (if 0 < (summaryData selected paidNot unmatched external issues).totalSelected then
        (((summaryData selected paidNot unmatched external issues).underpaidCount +
          (summaryData selected paidNot unmatched external issues).unpaidCount : Nat) : Rat) /
          ((summaryData selected paidNot unmatched external issues).totalSelected : Rat) * 100
      else 0) ∧
    (summaryData selected paidNot unmatched external issues).underpaidCount +
      (summaryData selected paidNot unmatched external issues).unpaidCount =
      (selected.filter (fun a => !(a.paidStatus == PaidStatus.paid))).length := by
  exact ⟨rfl, statusCountsPartition selected⟩

/-- C5 (counterexample): a matched payment of −5 leaves the account with
`paidAmount = −5 ≠ 0` and status `Unpaid`, refuting the claim that the final
status is `Unpaid` iff `paidAmount = 0`. -/
theorem C5_counterexample :
    ((reconcile [mA] [pNeg]).selected.map (fun a => (a.paidAmount, a.paidStatus)))
      = [(-5, PaidStatus.unpaid)] ∧ (-5 : Rat) ≠ 0 := by
  constructor
  · simp [reconcile, mA, pNeg, selectedOf, initAccount, pass1Step, pass2Step, applyPayment,
      updateFirst, mkResolved, getCloseMatch1, statusOf, paymentKnown,
      normalize_name, pyLower, pyStrip, collapseOnce, pySpace, ANNUAL_FEE, FUZZY_CUTOFF,
      List.enum, List.enumFrom, List.find?, List.foldl, List.filterMap]
    norm_num
  · norm_num

/-- C5 (amended): after reconciliation every account's status satisfies
`Paid ↔ fee ≤ paidAmount`, `Underpaid ↔ 0 < paidAmount < fee`, and
`Unpaid ↔ paidAmount ≤ 0` (not `= 0`: a negative accumulated amount is also
classified `Unpaid`). -/
theorem C5_amended (members : List Member) (payments : List Payment) :
    ∀ a ∈ (reconcile members payments).selected,
      (a.paidStatus = PaidStatus.paid ↔ ANNUAL_FEE ≤ a.paidAmount) ∧
      (a.paidStatus = PaidStatus.underpaid ↔ 0 < a.paidAmount ∧ a.paidAmount < ANNUAL_FEE) ∧
      (a.paidStatus = PaidStatus.unpaid ↔ a.paidAmount ≤ 0) := by
  intro a ha
  have hmap : a ∈ ((payments.enum.foldl
      (pass2Step (((payments.enum.foldl pass1Step
        ⟨selectedOf members, [], []⟩)).accounts.map (·.normalizedName)))
      ⟨(payments.enum.foldl pass1Step ⟨selectedOf members, [], []⟩).accounts,
       (payments.enum.foldl pass1Step ⟨selectedOf members, [], []⟩).matched,
       (payments.enum.foldl pass1Step ⟨selectedOf members, [], []⟩).resolved, []⟩).accounts.map
      (fun b => { b with paidStatus := statusOf b.paidAmount })) := ha
  obtain ⟨b, _, rfl⟩ := List.mem_map.mp hmap
  show (statusOf b.paidAmount = PaidStatus.paid ↔ _) ∧
    (statusOf b.paidAmount = PaidStatus.underpaid ↔ _) ∧
    (statusOf b.paidAmount = PaidStatus.unpaid ↔ _)
  unfold statusOf
  split_ifs with h1 h2
  · exact ⟨⟨fun _ => h1, fun _ => rfl⟩,
      ⟨fun h => (nomatch h), fun h => absurd h1 (not_le.mpr h.2)⟩,
      ⟨fun h => (nomatch h), fun h => absurd (h1.trans h) (by norm_num [ANNUAL_FEE])⟩⟩
  · exact ⟨⟨fun h => (nomatch h), fun h => absurd h h1⟩,
      ⟨fun _ => ⟨h2, lt_of_not_le h1⟩, fun _ => rfl⟩,
      ⟨fun h => (nomatch h), fun h => absurd h2 (not_lt.mpr h)⟩⟩
  · exact ⟨⟨fun h => (nomatch h), fun h => absurd h h1⟩,
      ⟨fun h => (nomatch h), fun h => absurd h.1 h2⟩,
      ⟨fun _ => le_of_not_lt h2, fun _ => rfl⟩⟩

/-- C5 (witness): the amended characterisation applied to the concrete run
of `C5_counterexample`'s input. -/
theorem C5_witness :
    ∃ a, a ∈ (reconcile [mA] [pNeg]).selected ∧
      (a.paidStatus = PaidStatus.unpaid ↔ a.paidAmount ≤ 0) := by
  have hsel : (reconcile [mA] [pNeg]).selected ≠ [] := by
    simp [reconcile, mA, pNeg, selectedOf, initAccount, pass1Step, pass2Step, applyPayment,
      updateFirst, mkResolved, getCloseMatch1, statusOf, paymentKnown,
      normalize_name, pyLower, pyStrip, collapseOnce, pySpace, ANNUAL_FEE, FUZZY_CUTOFF,
      List.enum, List.enumFrom, List.find?, List.foldl, List.filterMap]
  obtain ⟨a, l, hl⟩ := List.exists_cons_of_ne_nil hsel
  have ha : a ∈ (reconcile [mA] [pNeg]).selected := by rw [hl]; exact List.mem_cons_self a l
  exact ⟨a, ha, (C5_amended [mA] [pNeg] a ha).2.2⟩

/-- C1 (evaluation at the failing input): a payment with no StudentID whose
normalised name `"john smith"` matches the non-selected member `mNS` is left
out of `paidNotSelected` (which stays empty) even though it matched no
obligated account (it stays in `unmatchedPayments`).  The claim — and the
code's own comments — require exactly such payments to appear in
`paidNotSelected`; the append guard `if not payment_matched` is inverted. -/
theorem C1_eval :
    (reconcile [mNS] [pJohn]).paidNotSelected = [] ∧
    (reconcile [mNS] [pJohn]).unmatchedPayments = [mkResolved pJohn] := by
  constructor <;>
    simp [reconcile, mNS, pJohn, selectedOf, initAccount, pass1Step, pass2Step, applyPayment,
      updateFirst, mkResolved, getCloseMatch1, statusOf, paymentKnown, normalize_name, pyLower,
      pyStrip, collapseOnce, pySpace, ANNUAL_FEE, FUZZY_CUTOFF,
      List.enum, List.enumFrom, List.find?, List.foldl, List.filterMap, List.filter]

theorem tupBelow_refl (p : Rat × String) : tupBelow p p :=
  Or.inr ⟨rfl, Or.inr rfl⟩

theorem tupBelow_trans {p q r : Rat × String} (h1 : tupBelow p q) (h2 : tupBelow q r) :
    tupBelow p r := by
  rcases h1 with h1 | ⟨h1e, h1s⟩
  · rcases h2 with h2 | ⟨h2e, _⟩
    · exact Or.inl (h1.trans h2)
    · exact Or.inl (h2e ▸ h1)
  · rcases h2 with h2 | ⟨h2e, h2s⟩
    · exact Or.inl (h1e ▸ h2)
    · refine Or.inr ⟨h1e.trans h2e, ?_⟩
      rcases h1s with h1s | h1s
      · rcases h2s with h2s | h2s
        · exact Or.inl (h1s.trans h2s)
        · exact Or.inl (h2s ▸ h1s)
      · rcases h2s with h2s | h2s
        · exact Or.inl (h1s ▸ h2s)
        · exact Or.inr (h1s.trans h2s)

/-- The replacement test of the fold in `getCloseMatch1`, as a strict bound. -/
theorem tupBelow_of_cond {b rx : Rat × String}
    (h : b.1 < rx.1 ∨ (b.1 = rx.1 ∧ b.2 < rx.2)) : tupBelow b rx := by
  rcases h with h | ⟨he, hs⟩
  · exact Or.inl h
  · exact Or.inr ⟨he, Or.inl hs⟩

/-- When the fold keeps the incumbent, the challenger is no greater. -/
theorem tupBelow_of_not_cond {b rx : Rat × String}
    (h : ¬(b.1 < rx.1 ∨ (b.1 = rx.1 ∧ b.2 < rx.2))) : tupBelow rx b := by
  rcases lt_trichotomy rx.1 b.1 with hlt | heq | hgt
  · exact Or.inl hlt
  · refine Or.inr ⟨heq, ?_⟩
    rcases lt_trichotomy rx.2 b.2 with hs | hs | hs
    · exact Or.inl hs
    · exact Or.inr hs
    · exact absurd (Or.inr ⟨heq.symm, hs⟩) h
  · exact absurd (Or.inl hgt) h

theorem foldStepSome (rx bb : Rat × String) :
    (match some bb with
      | none => some rx
      | some b' => if b'.1 < rx.1 ∨ (b'.1 = rx.1 ∧ b'.2 < rx.2) then some rx else some b')
    = if bb.1 < rx.1 ∨ (bb.1 = rx.1 ∧ bb.2 < rx.2) then some rx else some bb := rfl

/-- The `foldl` in `getCloseMatch1` returns an element of the accumulator or
the list that bounds (in the Python tuple order) the accumulator and every
element of the list. -/
theorem foldBest_spec (l : List (Rat × String)) :
    ∀ acc : Option (Rat × String), ∀ b,
      l.foldl (fun best rx =>
        match best with
        | none => some rx
        | some b' => if b'.1 < rx.1 ∨ (b'.1 = rx.1 ∧ b'.2 < rx.2) then some rx else some b')
        acc = some b →
      (acc = some b ∨ b ∈ l) ∧ (∀ a, acc = some a → tupBelow a b) ∧ (∀ x ∈ l, tupBelow x b) := by
  induction l with
  | nil =>
    intro acc b hb
    refine ⟨Or.inl hb, ?_, ?_⟩
    · intro a ha
      rw [ha] at hb
      injection hb with hab
      exact hab ▸ tupBelow_refl a
    · intro x hx
      cases hx
  | cons rx l ih =>
    intro acc b hb
    rw [List.foldl_cons] at hb
    cases acc with
    | none =>
      have h := ih (some rx) b hb
      refine ⟨?_, ?_, ?_⟩
      · rcases h.1 with h1 | h1
        · injection h1 with h1e
          exact Or.inr (h1e ▸ List.mem_cons_self rx l)
        · exact Or.inr (List.mem_cons_of_mem rx h1)
      · intro a ha
        cases ha
      · intro x hx
        rcases List.mem_cons.mp hx with hx | hx
        · exact hx ▸ h.2.1 rx rfl
        · exact h.2.2 x hx
    | some bb =>
      rw [foldStepSome] at hb
      by_cases hc : bb.1 < rx.1 ∨ (bb.1 = rx.1 ∧ bb.2 < rx.2)
      · rw [if_pos hc] at hb
        have h := ih (some rx) b hb
        have hrxb : tupBelow rx b := h.2.1 rx rfl
        refine ⟨?_, ?_, ?_⟩
        · rcases h.1 with h1 | h1
          · injection h1 with h1e
            exact Or.inr (h1e ▸ List.mem_cons_self rx l)
          · exact Or.inr (List.mem_cons_of_mem rx h1)
        · intro a ha
          injection ha with hae
          exact hae ▸ tupBelow_trans (tupBelow_of_cond hc) hrxb
        · intro x hx
          rcases List.mem_cons.mp hx with hx | hx
          · exact hx ▸ hrxb
          · exact h.2.2 x hx
      · rw [if_neg hc] at hb
        have h := ih (some bb) b hb
        have hbbb : tupBelow bb b := h.2.1 bb rfl
        refine ⟨?_, ?_, ?_⟩
        · rcases h.1 with h1 | h1
          · exact Or.inl h1
          · exact Or.inr (List.mem_cons_of_mem rx h1)
        · intro a ha
          injection ha with hae
          exact hae ▸ hbbb
        · intro x hx
          rcases List.mem_cons.mp hx with hx | hx
          · exact hx ▸ tupBelow_trans (tupBelow_of_not_cond hc) hbbb
          · exact h.2.2 x hx

/-- The fold returns `none` only when both the accumulator and the scored
list are empty. -/
theorem foldBest_none (l : List (Rat × String)) :
    ∀ acc : Option (Rat × String),
      l.foldl (fun best rx =>
        match best with
        | none => some rx
        | some b' => if b'.1 < rx.1 ∨ (b'.1 = rx.1 ∧ b'.2 < rx.2) then some rx else some b')
        acc = none →
      acc = none ∧ l = [] := by
  induction l with
  | nil => exact fun acc h => ⟨h, rfl⟩
  | cons rx l ih =>
    intro acc h
    rw [List.foldl_cons] at h
    cases acc with
    | none =>
      have := (ih (some rx) h).1
      cases this
    | some bb =>
      rw [foldStepSome] at h
      by_cases hc : bb.1 < rx.1 ∨ (bb.1 = rx.1 ∧ bb.2 < rx.2)
      · rw [if_pos hc] at h
        have := (ih (some rx) h).1
        cases this
      · rw [if_neg hc] at h
        have := (ih (some bb) h).1
        cases this

/-- C2 (amended): when the fuzzy selector returns a match it is a candidate
whose similarity score reaches the cutoff (inclusive) and which maximises
the `(score, candidate)` pair in the Python tuple order — i.e., among the
candidates tied on the highest score it is the lexicographically *greatest*
string, not the one earliest in the snapshot list; when it returns no match,
no candidate reaches the cutoff. -/
theorem C2_fuzzy_best (word : String) (possibilities : List String) (cutoff : Rat) :
    (∀ m, getCloseMatch1 word possibilities cutoff = some m →
      m ∈ possibilities ∧ cutoff ≤ simScore m word ∧
      ∀ x ∈ possibilities, cutoff ≤ simScore x word →
        tupBelow (simScore x word, x) (simScore m word, m)) ∧
    (getCloseMatch1 word possibilities cutoff = none →
      ∀ x ∈ possibilities, ¬ cutoff ≤ simScore x word) := by
  constructor
  · intro m hm
    unfold getCloseMatch1 at hm
    obtain ⟨b, hb, hbm⟩ := Option.map_eq_some'.mp hm
    have h := foldBest_spec _ none b hb
    have hbmem : b ∈ possibilities.filterMap (fun x =>
        if cutoff ≤ simScore x word then some (simScore x word, x) else none) := by
      rcases h.1 with h1 | h1
      · cases h1
      · exact h1
    obtain ⟨x0, hx0, hx0b⟩ := List.mem_filterMap.mp hbmem
    by_cases hcx : cutoff ≤ simScore x0 word
    · rw [if_pos hcx] at hx0b
      have hb1 : b = (simScore x0 word, x0) := by
        injection hx0b with hh
        exact hh.symm
      have hx0m : x0 = m := by
        rw [hb1] at hbm
        exact hbm
      subst hx0m
      refine ⟨hx0, hcx, ?_⟩
      intro x hx hcx2
      have hmem2 : (simScore x word, x) ∈ possibilities.filterMap (fun y =>
          if cutoff ≤ simScore y word then some (simScore y word, y) else none) :=
        List.mem_filterMap.mpr ⟨x, hx, by rw [if_pos hcx2]⟩
      have h3 := h.2.2 _ hmem2
      rw [hb1] at h3
      exact h3
    · rw [if_neg hcx] at hx0b
      cases hx0b
  · intro hnone x hx hcx
    unfold getCloseMatch1 at hnone
    have hfold := Option.map_eq_none'.mp hnone
    have hempty := (foldBest_none _ none hfold).2
    have hmem : (simScore x word, x) ∈ possibilities.filterMap (fun y =>
        if cutoff ≤ simScore y word then some (simScore y word, y) else none) :=
      List.mem_filterMap.mpr ⟨x, hx, by rw [if_pos hcx]⟩
    rw [hempty] at hmem
    cases hmem

set_option maxRecDepth 8192 in
/-- C2 (counterexample): the queries `"abcdefgx"` and `"abcdefgz"` tie at
score 7/8 ≥ 0.86 against the payment name `"abcdefgy"`, yet the fuzzy
selector picks `"abcdefgz"`, the candidate *later* in the snapshot list
(because it is lexicographically greater) — and in the full run the payment
is accumulated into the second account, not the first.  This refutes the
claimed earliest-position tie-break. -/
theorem C2_counterexample :
    getCloseMatch1 "abcdefgy" ["abcdefgx", "abcdefgz"] FUZZY_CUTOFF = some "abcdefgz" ∧
    simScore "abcdefgx" "abcdefgy" = simScore "abcdefgz" "abcdefgy" ∧
    FUZZY_CUTOFF ≤ simScore "abcdefgx" "abcdefgy" ∧
    ((reconcile [mX, mZ] [pY]).selected.map (fun a => (a.studentID, a.paidAmount)))
      = [("S1", 0), ("S2", 10)] := by
  have hx : simScore "abcdefgx" "abcdefgy" = 7/8 := by
    unfold simScore
    have h : matchSize "abcdefgx".data "abcdefgy".data = 7 := by decide
    have hl : "abcdefgx".length = 8 := rfl
    have hl2 : "abcdefgy".length = 8 := rfl
    rw [h, hl, hl2]; norm_num
  have hz : simScore "abcdefgz" "abcdefgy" = 7/8 := by
    unfold simScore
    have h : matchSize "abcdefgz".data "abcdefgy".data = 7 := by decide
    have hl : "abcdefgz".length = 8 := rfl
    have hl2 : "abcdefgy".length = 8 := rfl
    rw [h, hl, hl2]; norm_num
  have hcut : FUZZY_CUTOFF ≤ (7:Rat)/8 := by norm_num [FUZZY_CUTOFF]
  have hnlt : ¬ ((7:Rat)/8 < 7/8) := by norm_num
  have hcmp : (("abcdefgx" : String) < "abcdefgz") := by
    rw [String.lt_iff_toList_lt]; decide
  rw [String.lt_iff_toList_lt] at hcmp
  simp only [String.toList] at hcmp
  have hbest : getCloseMatch1 "abcdefgy" ["abcdefgx", "abcdefgz"] FUZZY_CUTOFF
      = some "abcdefgz" := by
    simp [getCloseMatch1, List.filterMap, hx, hz, hcut, hnlt, hcmp, List.foldl]
  refine ⟨hbest, by rw [hx, hz], by rw [hx]; exact hcut, ?_⟩
  simp [reconcile, mX, mZ, pY, selectedOf, initAccount, pass1Step, pass2Step, applyPayment,
    updateFirst, mkResolved, hbest, statusOf, paymentKnown,
    normalize_name, pyLower, pyStrip, collapseOnce, pySpace, ANNUAL_FEE,
    List.enum, List.enumFrom, List.find?, List.foldl, List.filterMap]

/-- C2 (witness): the amended maximality statement applied to a concrete
query with a single candidate at score 1. -/
theorem C2_witness :
    getCloseMatch1 "ab" ["ab"] FUZZY_CUTOFF = some "ab" ∧
    "ab" ∈ ["ab"] ∧ FUZZY_CUTOFF ≤ simScore "ab" "ab" := by
  have hs : simScore "ab" "ab" = 1 := by
    unfold simScore
    have h : matchSize "ab".data "ab".data = 2 := by decide
    have hl : "ab".length = 2 := rfl
    rw [h, hl]; norm_num
  have hcut : FUZZY_CUTOFF ≤ simScore "ab" "ab" := by
    rw [hs]; norm_num [FUZZY_CUTOFF]
  have hsome : getCloseMatch1 "ab" ["ab"] FUZZY_CUTOFF = some "ab" := by
    simp [getCloseMatch1, List.filterMap, hcut, List.foldl]
  have h := (C2_fuzzy_best "ab" ["ab"] FUZZY_CUTOFF).1 "ab" hsome
  exact ⟨hsome, h.1, h.2.1⟩

/-- Strings of the form `pre ++ (a ++ rest)` are equal exactly when the
middle parts are. -/
theorem string_mid_cancel {pre a b rest : String}
    (h : pre ++ (a ++ rest) = pre ++ (b ++ rest)) : a = b := by
  have hd := congrArg String.data h
  rw [String.data_append, String.data_append, String.data_append, String.data_append] at hd
  exact String.ext (List.append_cancel_right (List.append_cancel_left hd))

/-- Two renderings of the same summary statistics agree exactly when their
generation timestamps agree. -/
theorem generate_summary_eq_iff (sel : List Account) (paidNot : List Payment)
    (unm : List Resolved) (ext : List VBooking) (iss : List VBooking) (n n2 : String) :
    generate_summary sel paidNot unm ext iss n = generate_summary sel paidNot unm ext iss n2 ↔
      n = n2 := by
  constructor
  · intro h
    exact string_mid_cancel h
  · intro h
    rw [h]

/-- C3 (counterexample): two runs over identical (empty) input collections
but different wall-clock instants produce different summary texts — the
`Generated:` line embeds `datetime.now()`, so outputs are not byte-identical
across runs. -/
theorem C3_counterexample :
    (runAll [] [] [] "2024-01-01 10:00:00").summary ≠
      (runAll [] [] [] "2024-01-01 10:00:01").summary := by
  intro h
  have h2 := (generate_summary_eq_iff (reconcile [] []).selected
    (reconcile [] []).paidNotSelected (reconcile [] []).unmatchedPayments
    (validate_external_bookings []).1 (validate_external_bookings []).2
    "2024-01-01 10:00:00" "2024-01-01 10:00:01").mp h
  exact absurd h2 (by decide)

/-- C3 (amended): with the clock made explicit, two runs over identical,
identically-ordered inputs produce identical output collections
unconditionally, and identical summary texts exactly when the generation
timestamps coincide (the timestamp line is the only clock-dependent part). -/
theorem C3_amended (members : List Member) (payments : List Payment)
    (bookings : List Booking) (now now2 : String) :
    ((runAll members payments bookings now).selected =
        (runAll members payments bookings now2).selected ∧
      (runAll members payments bookings now).fuzzySuggestions =
        (runAll members payments bookings now2).fuzzySuggestions ∧
      (runAll members payments bookings now).paidNotSelected =
        (runAll members payments bookings now2).paidNotSelected ∧
      (runAll members payments bookings now).unmatchedPayments =
        (runAll members payments bookings now2).unmatchedPayments ∧
      (runAll members payments bookings now).resolvedPayments =
        (runAll members payments bookings now2).resolvedPayments ∧
      (runAll members payments bookings now).externalAll =
        (runAll members payments bookings now2).externalAll ∧
      (runAll members payments bookings now).externalIssues =
        (runAll members payments bookings now2).externalIssues) ∧
    ((runAll members payments bookings now).summary =
        (runAll members payments bookings now2).summary ↔ now = now2) := by
  refine ⟨⟨rfl, rfl, rfl, rfl, rfl, rfl, rfl⟩, ?_⟩
  exact generate_summary_eq_iff (reconcile members payments).selected
    (reconcile members payments).paidNotSelected
    (reconcile members payments).unmatchedPayments
    (validate_external_bookings bookings).1 (validate_external_bookings bookings).2 now now2

/-! ### Infrastructure for the pass characterisations -/

theorem payFold_studentID (ms : List Payment) :
    ∀ a, (payFold a ms).studentID = a.studentID := by
  induction ms with
  | nil => intro a; rfl
  | cons p ms ih => intro a; exact ih (applyPayment p a)

theorem payFold_normalizedName (ms : List Payment) :
    ∀ a, (payFold a ms).normalizedName = a.normalizedName := by
  induction ms with
  | nil => intro a; rfl
  | cons p ms ih => intro a; exact ih (applyPayment p a)

theorem payFold_fullName (ms : List Payment) :
    ∀ a, (payFold a ms).fullName = a.fullName := by
  induction ms with
  | nil => intro a; rfl
  | cons p ms ih => intro a; exact ih (applyPayment p a)

theorem payFold_team (ms : List Payment) :
    ∀ a, (payFold a ms).team = a.team := by
  induction ms with
  | nil => intro a; rfl
  | cons p ms ih => intro a; exact ih (applyPayment p a)

theorem payFold_append (a : Account) (ms ns : List Payment) :
    payFold a (ms ++ ns) = payFold (payFold a ms) ns := by
  unfold payFold
  exact List.foldl_append _ _ _ _

theorem ratSum_shift (l : List Rat) : ∀ x : Rat, l.foldl (· + ·) x = x + l.foldl (· + ·) 0 := by
  induction l with
  | nil => intro x; exact (add_zero x).symm
  | cons y l ih =>
    intro x
    rw [List.foldl_cons, List.foldl_cons, ih (x + y), ih (0 + y), zero_add, add_assoc]

theorem ratSum_cons (x : Rat) (l : List Rat) : ratSum (x :: l) = x + ratSum l := by
  unfold ratSum
  rw [List.foldl_cons, ratSum_shift, zero_add]

theorem ratSum_append (l l' : List Rat) : ratSum (l ++ l') = ratSum l + ratSum l' := by
  induction l with
  | nil => rw [List.nil_append]; exact (zero_add _).symm
  | cons x l ih => rw [List.cons_append, ratSum_cons, ratSum_cons, ih, add_assoc]

theorem amountSum_cons (p : Payment) (ps : List Payment) :
    amountSum (p :: ps) = p.amount + amountSum ps := by
  unfold amountSum
  rw [List.map_cons, ratSum_cons]

theorem amountSum_append (ps qs : List Payment) :
    amountSum (ps ++ qs) = amountSum ps + amountSum qs := by
  unfold amountSum
  rw [List.map_append, ratSum_append]

theorem payFold_paidAmount (ms : List Payment) :
    ∀ a, (payFold a ms).paidAmount = a.paidAmount + amountSum ms := by
  induction ms with
  | nil =>
    intro a
    show a.paidAmount = a.paidAmount + amountSum []
    rw [show amountSum [] = 0 from rfl, add_zero]
  | cons p ms ih =>
    intro a
    show (payFold (applyPayment p a) ms).paidAmount = _
    rw [ih, amountSum_cons, show (applyPayment p a).paidAmount = a.paidAmount + p.amount from rfl,
      add_assoc]

theorem payFold_paymentDate (ms : List Payment) :
    ∀ a, (payFold a ms).paymentDate =
      (match ms.getLast? with | none => a.paymentDate | some p => p.paymentDate) := by
  induction ms with
  | nil => intro a; rfl
  | cons p ms ih =>
    intro a
    show (payFold (applyPayment p a) ms).paymentDate = _
    rw [ih]
    cases ms with
    | nil => rfl
    | cons q ms =>
      rw [List.getLast?_cons_cons]
      cases hq : (q :: ms).getLast? with
      | none => simp at hq
      | some x => rfl

theorem payFold_outstanding (ms : List Payment) :
    ∀ a, (payFold a ms).outstanding =
      (if ms.isEmpty then a.outstanding
       else max 0 (ANNUAL_FEE - (a.paidAmount + amountSum ms))) := by
  induction ms with
  | nil => intro a; rfl
  | cons p ms ih =>
    intro a
    show (payFold (applyPayment p a) ms).outstanding = _
    rw [ih]
    cases hms : ms with
    | nil =>
      show (applyPayment p a).outstanding = _
      show max 0 (ANNUAL_FEE - (a.paidAmount + p.amount)) = _
      rw [show (p :: []).isEmpty = false from rfl, if_neg (by simp), amountSum_cons,
        show amountSum [] = 0 from rfl, add_zero]
    | cons q ms' =>
      rw [show (q :: ms').isEmpty = false from rfl,
        show (p :: q :: ms').isEmpty = false from rfl]
      rw [if_neg (by simp), if_neg (by simp), amountSum_cons, amountSum_cons,
        show (applyPayment p a).paidAmount = a.paidAmount + p.amount from rfl, add_assoc,
        amountSum_cons]

theorem updateFirst_length (P : Account → Bool) (f : Account → Account) :
    ∀ l : List Account, (updateFirst P f l).length = l.length := by
  intro l
  induction l with
  | nil => rfl
  | cons a l ih =>
    unfold updateFirst
    by_cases hP : P a
    · rw [if_pos hP, List.length_cons, List.length_cons]
    · rw [if_neg hP, List.length_cons, List.length_cons, ih]

theorem updateFirst_getElem? (P : Account → Bool) (f : Account → Account) :
    ∀ (l : List Account) (k : Nat),
      (updateFirst P f l)[k]? =
        if l.findIdx? P = some k then (l[k]?).map f else l[k]? := by
  intro l
  induction l with
  | nil =>
    intro k
    simp [updateFirst]
  | cons a l ih =>
    intro k
    unfold updateFirst
    by_cases hP : P a
    · rw [if_pos hP]
      rw [List.findIdx?_cons, if_pos hP]
      cases k with
      | zero => simp
      | succ k => simp
    · rw [if_neg hP]
      rw [List.findIdx?_cons, if_neg hP, List.findIdx?_start_succ]
      cases k with
      | zero =>
        cases hf : l.findIdx? P 0 with
        | none => simp [hf]
        | some j => simp [hf]
      | succ k =>
        cases hf : l.findIdx? P 0 with
        | none => simp [hf, ih k]
        | some j =>
          rw [List.getElem?_cons_succ, List.getElem?_cons_succ, ih k]
          by_cases hjk : j = k
          · subst hjk
            simp [hf]
          · simp [hf, hjk, Nat.succ_inj, hjk]

theorem find?_of_findIdx?_some (p : Account → Bool) :
    ∀ (l : List Account) (k : Nat), l.findIdx? p = some k → l.find? p = l[k]? := by
  intro l
  induction l with
  | nil => intro k h; cases h
  | cons a l ih =>
    intro k h
    rw [List.findIdx?_cons] at h
    by_cases hP : p a
    · rw [if_pos hP] at h
      injection h with h
      subst h
      rw [List.find?_cons_of_pos _ hP, List.getElem?_cons_zero]
    · rw [if_neg hP, List.findIdx?_start_succ] at h
      cases hf : l.findIdx? p 0 with
      | none => rw [hf] at h; cases h
      | some j =>
        rw [hf] at h
        injection h with h
        subst h
        rw [List.find?_cons_of_neg _ hP, List.getElem?_cons_succ]
        exact ih j hf

theorem find?_none_iff_findIdx?_none (p : Account → Bool) (l : List Account) :
    l.find? p = none ↔ l.findIdx? p = none := by
  rw [List.find?_eq_none, List.findIdx?_eq_none_iff]
  constructor
  · intro h x hx
    exact Bool.not_eq_true _ ▸ (by simpa using h x hx)
  · intro h x hx
    simp [h x hx]

theorem findIdx?_comp_congr {β : Type} (g : Account → β) (q : β → Bool)
    {l l' : List Account} (h : l.map g = l'.map g) :
    l.findIdx? (fun a => q (g a)) = l'.findIdx? (fun a => q (g a)) := by
  have h1 : (fun a => q (g a)) = (q ∘ g) := rfl
  rw [h1, ← List.findIdx?_map, ← List.findIdx?_map, h]

theorem updateFirst_map {β : Type} (g : Account → β) (P : Account → Bool)
    (f : Account → Account) (hg : ∀ a, g (f a) = g a) :
    ∀ l : List Account, (updateFirst P f l).map g = l.map g := by
  intro l
  induction l with
  | nil => rfl
  | cons a l ih =>
    unfold updateFirst
    by_cases hP : P a
    · rw [if_pos hP, List.map_cons, List.map_cons, hg]
    · rw [if_neg hP, List.map_cons, List.map_cons, ih]

theorem pass1Step_accounts_map {β : Type} (g : Account → β)
    (hg : ∀ p a, g (applyPayment p a) = g a) (st : Pass1State) (ip : Nat × Payment) :
    ((pass1Step st ip).accounts).map g = st.accounts.map g := by
  unfold pass1Step
  split
  · rfl
  · split
    · rfl
    · exact updateFirst_map g _ _ (hg ip.2) st.accounts

theorem pass1_accounts_map {β : Type} (g : Account → β)
    (hg : ∀ p a, g (applyPayment p a) = g a) (ips : List (Nat × Payment)) :
    ∀ st : Pass1State, ((ips.foldl pass1Step st).accounts).map g = st.accounts.map g := by
  induction ips with
  | nil => intro st; rfl
  | cons ip ips ih =>
    intro st
    rw [List.foldl_cons, ih (pass1Step st ip), pass1Step_accounts_map g hg]

theorem exactIdx_congr {l l' : List Account}
    (h : l.map (·.studentID) = l'.map (·.studentID)) (p : Payment) :
    exactIdx l p = exactIdx l' p := by
  unfold exactIdx
  cases p.studentID with
  | none => rfl
  | some sid =>
    show l.findIdx? (fun a => (fun s => s == sid) ((fun a => a.studentID) a)) = _
    rw [findIdx?_comp_congr (fun a => a.studentID) (fun s => s == sid) h]
    rfl

theorem rp1_congr {l l' : List Account}
    (h : l.map (·.studentID) = l'.map (·.studentID)) (p : Payment) :
    rp1 l p = rp1 l' p := by
  unfold rp1
  split
  · rfl
  · rename_i sid _
    have hidx : l.findIdx? (fun a => a.studentID == sid) =
        l'.findIdx? (fun a => a.studentID == sid) :=
      findIdx?_comp_congr (fun a => a.studentID) (fun s => s == sid) h
    cases hf : l.find? (fun a => a.studentID == sid) with
    | none =>
      have h1 : l.findIdx? (fun a => a.studentID == sid) = none :=
        (find?_none_iff_findIdx?_none _ _).mp hf
      have h2 : l'.find? (fun a => a.studentID == sid) = none :=
        (find?_none_iff_findIdx?_none _ _).mpr (hidx ▸ h1)
      rw [h2]
    | some a0 =>
      cases hf' : l'.find? (fun a => a.studentID == sid) with
      | none =>
        have h1 : l'.findIdx? (fun a => a.studentID == sid) = none :=
          (find?_none_iff_findIdx?_none _ _).mp hf'
        have h2 : l.find? (fun a => a.studentID == sid) = none :=
          (find?_none_iff_findIdx?_none _ _).mpr (hidx ▸ h1)
        rw [h2] at hf
        cases hf
      | some a0' =>
        have hpa := List.find?_some hf
        have hpa' := List.find?_some hf'
        have ha0 : a0.studentID = sid := eq_of_beq hpa
        have ha0' : a0'.studentID = sid := eq_of_beq hpa'
        show ({ mkResolved p with
                resolvedStudentID := some a0.studentID,
                matchKind := .byStudentID } : Resolved) =
          ({ mkResolved p with
             resolvedStudentID := some a0'.studentID,
             matchKind := .byStudentID } : Resolved)
        rw [ha0, ha0']

theorem pass1Step_accounts_getElem? (st : Pass1State) (ip : Nat × Payment) (k : Nat) :
    (pass1Step st ip).accounts[k]? =
      (if exactIdx st.accounts ip.2 = some k then (st.accounts[k]?).map (applyPayment ip.2)
       else st.accounts[k]?) := by
  unfold pass1Step exactIdx
  split
  · rename_i heq
    rw [heq]
    simp
  · rename_i sid heq
    rw [heq]
    simp only [Option.some_bind]
    split
    · rename_i hf
      have h1 : st.accounts.findIdx? (fun a => a.studentID == sid) = none :=
        (find?_none_iff_findIdx?_none _ _).mp hf
      simp [h1]
    · rw [updateFirst_getElem?]

theorem pass1Step_matched (st : Pass1State) (ip : Nat × Payment) :
    (pass1Step st ip).matched =
      (if (exactIdx st.accounts ip.2).isSome then st.matched ++ [ip.1] else st.matched) := by
  unfold pass1Step exactIdx
  split
  · rename_i heq
    rw [heq]
    simp
  · rename_i sid heq
    rw [heq]
    simp only [Option.some_bind]
    split
    · rename_i hf
      have h1 : st.accounts.findIdx? (fun a => a.studentID == sid) = none :=
        (find?_none_iff_findIdx?_none _ _).mp hf
      simp [h1]
    · rename_i a0 hf
      have h2 : st.accounts.findIdx? (fun a => a.studentID == sid) ≠ none := by
        intro hn
        rw [(find?_none_iff_findIdx?_none _ _).mpr hn] at hf
        cases hf
      rw [if_pos (Option.isSome_iff_ne_none.mpr h2)]

theorem pass1Step_resolved (st : Pass1State) (ip : Nat × Payment) :
    (pass1Step st ip).resolved = st.resolved ++ [rp1 st.accounts ip.2] := by
  unfold pass1Step rp1
  split
  · rfl
  · split
    · rfl
    · rfl

theorem pass1_accounts_getElem? (ips : List (Nat × Payment)) :
    ∀ (st : Pass1State) (k : Nat),
      ((ips.foldl pass1Step st).accounts)[k]? =
        (st.accounts[k]?).map (fun a =>
          payFold a ((ips.filter (fun ip => exactIdx st.accounts ip.2 == some k)).map (·.2))) := by
  induction ips with
  | nil =>
    intro st k
    show st.accounts[k]? = _
    cases st.accounts[k]? <;> rfl
  | cons ip ips ih =>
    intro st k
    rw [List.foldl_cons, ih (pass1Step st ip) k]
    have hstab : (pass1Step st ip).accounts.map (·.studentID) = st.accounts.map (·.studentID) :=
      pass1Step_accounts_map (fun a => a.studentID) (fun _ _ => rfl) st ip
    have hidx : ∀ p, exactIdx (pass1Step st ip).accounts p = exactIdx st.accounts p :=
      fun p => exactIdx_congr hstab p
    simp only [hidx]
    rw [pass1Step_accounts_getElem?]
    by_cases hcond : exactIdx st.accounts ip.2 = some k
    · rw [if_pos hcond, List.filter_cons, if_pos (by simp [hcond])]
      cases st.accounts[k]? with
      | none => rfl
      | some a => rfl
    · rw [if_neg hcond, List.filter_cons, if_neg (by simp [hcond])]

theorem pass1_matched (ips : List (Nat × Payment)) :
    ∀ st : Pass1State,
      (ips.foldl pass1Step st).matched =
        st.matched ++ (ips.filter (fun ip => (exactIdx st.accounts ip.2).isSome)).map (·.1) := by
  induction ips with
  | nil => intro st; simp
  | cons ip ips ih =>
    intro st
    rw [List.foldl_cons, ih (pass1Step st ip)]
    have hstab : (pass1Step st ip).accounts.map (·.studentID) = st.accounts.map (·.studentID) :=
      pass1Step_accounts_map (fun a => a.studentID) (fun _ _ => rfl) st ip
    have hidx : ∀ p, exactIdx (pass1Step st ip).accounts p = exactIdx st.accounts p :=
      fun p => exactIdx_congr hstab p
    simp only [hidx]
    rw [pass1Step_matched]
    cases hcond : (exactIdx st.accounts ip.2).isSome with
    | true => simp [List.filter_cons, hcond, List.append_assoc]
    | false => simp [List.filter_cons, hcond]

theorem pass1_resolved (ips : List (Nat × Payment)) :
    ∀ st : Pass1State,
      (ips.foldl pass1Step st).resolved =
        st.resolved ++ ips.map (fun ip => rp1 st.accounts ip.2) := by
  induction ips with
  | nil => intro st; simp
  | cons ip ips ih =>
    intro st
    rw [List.foldl_cons, ih (pass1Step st ip)]
    have hstab : (pass1Step st ip).accounts.map (·.studentID) = st.accounts.map (·.studentID) :=
      pass1Step_accounts_map (fun a => a.studentID) (fun _ _ => rfl) st ip
    have hrp : ∀ p, rp1 (pass1Step st ip).accounts p = rp1 st.accounts p :=
      fun p => rp1_congr hstab p
    simp only [hrp]
    rw [pass1Step_resolved, List.map_cons, List.append_assoc]
    simp

theorem pass2Sim_accounts_getElem? (A1 : List Account) (M1 : List Nat) (R1 : List Resolved)
    (P : List (Nat × Payment)) (k : Nat) :
    (pass2Sim A1 M1 R1 P).accounts[k]? =
      (A1[k]?).map (fun a => payFold a ((P.filter (fun ip =>
        !(M1.contains ip.1) &&
          (fuzzyNameIdx A1 (normalize_name ip.2.fullName) == some k))).map (·.2))) := by
  show (A1.enum.map _)[k]? = _
  rw [List.getElem?_map, List.enum_eq_enumFrom, List.getElem?_enumFrom, Option.map_map]
  cases A1[k]? with
  | none => rfl
  | some a =>
    show some _ = some _
    rw [Nat.zero_add]
    rfl

theorem pass2Sim_accounts_map {β : Type} (g : Account → β)
    (hg : ∀ p a, g (applyPayment p a) = g a) (A1 : List Account) (M1 : List Nat)
    (R1 : List Resolved) (P : List (Nat × Payment)) :
    (pass2Sim A1 M1 R1 P).accounts.map g = A1.map g := by
  show (A1.enum.map _).map g = _
  rw [List.map_map]
  have hpay : ∀ (ms : List Payment) (a : Account), g (payFold a ms) = g a := by
    intro ms
    induction ms with
    | nil => intro a; rfl
    | cons p ms ih => intro a; exact (ih (applyPayment p a)).trans (hg p a)
  have h1 : (g ∘ fun ka : Nat × Account =>
      payFold ka.2 ((P.filter (fun ip =>
        !(M1.contains ip.1) &&
          (fuzzyNameIdx A1 (normalize_name ip.2.fullName) == some ka.1))).map (·.2)))
      = (fun ka : Nat × Account => g ka.2) := by
    funext ka
    exact hpay _ ka.2
  rw [h1]
  have h2 : (fun ka : Nat × Account => g ka.2) = (g ∘ Prod.snd) := rfl
  rw [h2, ← List.map_map, List.enum_eq_enumFrom, List.enumFrom_map_snd]

theorem pass2Sim_accounts_length (A1 : List Account) (M1 : List Nat) (R1 : List Resolved)
    (P : List (Nat × Payment)) :
    (pass2Sim A1 M1 R1 P).accounts.length = A1.length := by
  show (A1.enum.map _).length = _
  rw [List.length_map, List.enum_eq_enumFrom, List.enumFrom_length]

theorem contains_append_of_not_mem_right {l₁ l₂ : List Nat} {a : Nat} (h : a ∉ l₂) :
    (l₁ ++ l₂).contains a = l₁.contains a := by
  show (l₁ ++ l₂).elem a = l₁.elem a
  simp [List.elem_eq_mem, List.mem_append, h]

theorem none_beq_some (k : Nat) : ((none : Option Nat) == some k) = false := rfl

theorem pass2Sim_append_skip (A1 : List Account) (M1 : List Nat) (R1 : List Resolved)
    (P : List (Nat × Payment)) (ip : Nat × Payment)
    (hskip : (!(M1.contains ip.1) &&
      (fuzzyNameIdx A1 (normalize_name ip.2.fullName)).isSome) = false) :
    pass2Sim A1 M1 R1 (P ++ [ip]) = pass2Sim A1 M1 R1 P := by
  have hcond : pass2Cond A1 M1 ip = false := hskip
  cases hM : M1.contains ip.1 with
  | true =>
    simp only [pass2Sim, List.filter_append, List.any_append, List.filterMap_append,
      List.filter_cons, List.filter_nil, List.any_cons, List.any_nil, List.filterMap_cons,
      List.filterMap_nil, hcond, hM, Bool.not_true, Bool.false_and, Bool.and_false,
      Bool.or_false, if_false, Bool.false_eq_true, List.append_nil, List.map_nil]
  | false =>
    have hfz : fuzzyNameIdx A1 (normalize_name ip.2.fullName) = none := by
      rw [hM] at hskip
      simp at hskip
      exact Option.not_isSome_iff_eq_none.mp (by simp [hskip])
    simp only [pass2Sim, List.filter_append, List.any_append, List.filterMap_append,
      List.filter_cons, List.filter_nil, List.any_cons, List.any_nil, List.filterMap_cons,
      List.filterMap_nil, hcond, hfz, none_beq_some, Bool.and_false, Bool.false_and,
      Bool.or_false, if_false, Bool.false_eq_true, List.append_nil, List.map_nil]

theorem markStep_compose (A1 : List Account) (M1 : List Nat) (P : List (Nat × Payment))
    (ip : Nat × Payment) (k : Nat) (sid : String)
    (hM : M1.contains ip.1 = false)
    (hfz : fuzzyNameIdx A1 (normalize_name ip.2.fullName) = some k)
    (hsid : ((A1[k]?).map (·.studentID)) = some sid)
    (rp : Resolved) :
    (if (if rp.matchKind == MatchKind.unmatched &&
            P.any (fun ip => pass2Cond A1 M1 ip &&
              (normalize_name ip.2.fullName == rp.normalizedName)) then markRp A1 rp
          else rp).normalizedName == normalize_name ip.2.fullName &&
        (if rp.matchKind == MatchKind.unmatched &&
            P.any (fun ip => pass2Cond A1 M1 ip &&
              (normalize_name ip.2.fullName == rp.normalizedName)) then markRp A1 rp
          else rp).matchKind == MatchKind.unmatched then
      { (if rp.matchKind == MatchKind.unmatched &&
            P.any (fun ip => pass2Cond A1 M1 ip &&
              (normalize_name ip.2.fullName == rp.normalizedName)) then markRp A1 rp
          else rp) with
        resolvedStudentID := some sid, matchKind := MatchKind.byFuzzyName }
     else (if rp.matchKind == MatchKind.unmatched &&
            P.any (fun ip => pass2Cond A1 M1 ip &&
              (normalize_name ip.2.fullName == rp.normalizedName)) then markRp A1 rp
          else rp)) =
    (if rp.matchKind == MatchKind.unmatched &&
        (P ++ [ip]).any (fun ip => pass2Cond A1 M1 ip &&
          (normalize_name ip.2.fullName == rp.normalizedName)) then markRp A1 rp
     else rp) := by
  have hnm : ip.1 ∉ M1 := by
    intro h
    rw [show M1.contains ip.1 = decide (ip.1 ∈ M1) from List.elem_eq_mem _ _,
      decide_eq_true h] at hM
    cases hM
  have hcond : pass2Cond A1 M1 ip = true := by
    simp [pass2Cond, hnm, hfz]
  rcases Bool.eq_false_or_eq_true (rp.matchKind == MatchKind.unmatched) with hunm | hunm
  swap
  · have c1 : ¬((rp.matchKind == MatchKind.unmatched &&
        P.any (fun ip => pass2Cond A1 M1 ip &&
          (normalize_name ip.2.fullName == rp.normalizedName))) = true) := by
      rw [hunm, Bool.false_and]
      exact Bool.false_ne_true
    have c2 : ¬((rp.matchKind == MatchKind.unmatched &&
        (P ++ [ip]).any (fun ip => pass2Cond A1 M1 ip &&
          (normalize_name ip.2.fullName == rp.normalizedName))) = true) := by
      rw [hunm, Bool.false_and]
      exact Bool.false_ne_true
    rw [if_neg c1, if_neg c2]
    have c3 : ¬((rp.normalizedName == normalize_name ip.2.fullName &&
        (rp.matchKind == MatchKind.unmatched)) = true) := by
      rw [hunm, Bool.and_false]
      exact Bool.false_ne_true
    rw [if_neg c3]
  · rcases Bool.eq_false_or_eq_true (P.any (fun ip => pass2Cond A1 M1 ip &&
        (normalize_name ip.2.fullName == rp.normalizedName))) with hany | hany
    · have c1 : (rp.matchKind == MatchKind.unmatched &&
          P.any (fun ip => pass2Cond A1 M1 ip &&
            (normalize_name ip.2.fullName == rp.normalizedName))) = true := by
        rw [hunm, hany]
        rfl
      rw [if_pos c1]
      have c2 : (rp.matchKind == MatchKind.unmatched &&
          (P ++ [ip]).any (fun ip => pass2Cond A1 M1 ip &&
            (normalize_name ip.2.fullName == rp.normalizedName))) = true := by
        rw [hunm, List.any_append, hany, Bool.true_or]
        rfl
      rw [if_pos c2]
      have c3 : ¬(((markRp A1 rp).normalizedName == normalize_name ip.2.fullName &&
          ((markRp A1 rp).matchKind == MatchKind.unmatched)) = true) := by
        simp [markRp]
      rw [if_neg c3]
    · have c1 : ¬((rp.matchKind == MatchKind.unmatched &&
          P.any (fun ip => pass2Cond A1 M1 ip &&
            (normalize_name ip.2.fullName == rp.normalizedName))) = true) := by
        rw [hany, Bool.and_false]
        exact Bool.false_ne_true
      rw [if_neg c1]
      rcases Bool.eq_false_or_eq_true (rp.normalizedName == normalize_name ip.2.fullName)
        with hname | hname
      · have hnameEq : rp.normalizedName = normalize_name ip.2.fullName := eq_of_beq hname
        have hsymm : (normalize_name ip.2.fullName == rp.normalizedName) = true := by
          rw [hnameEq]
          exact beq_self_eq_true _
        have c3 : (rp.normalizedName == normalize_name ip.2.fullName &&
            (rp.matchKind == MatchKind.unmatched)) = true := by
          rw [hname, hunm]
          rfl
        rw [if_pos c3]
        have c2 : (rp.matchKind == MatchKind.unmatched &&
            (P ++ [ip]).any (fun ip => pass2Cond A1 M1 ip &&
              (normalize_name ip.2.fullName == rp.normalizedName))) = true := by
          rw [List.any_append, hany, hunm]
          simp [hcond, hsymm]
        rw [if_pos c2]
        unfold markRp
        rw [hnameEq, hfz]
        simp only [Option.some_bind]
        rw [hsid, hnameEq]
      · have hsymm : (normalize_name ip.2.fullName == rp.normalizedName) = false := by
          rw [beq_eq_false_iff_ne] at hname ⊢
          exact fun h => hname h.symm
        have c3 : ¬((rp.normalizedName == normalize_name ip.2.fullName &&
            (rp.matchKind == MatchKind.unmatched)) = true) := by
          rw [hname, Bool.false_and]
          exact Bool.false_ne_true
        rw [if_neg c3]
        have c2 : ¬((rp.matchKind == MatchKind.unmatched &&
            (P ++ [ip]).any (fun ip => pass2Cond A1 M1 ip &&
              (normalize_name ip.2.fullName == rp.normalizedName))) = true) := by
          rw [List.any_append, hany]
          simp [hsymm]
        rw [if_neg c2]

theorem sugRaw_eq (A1 : List Account) (p : Payment) (m : String) (k : Nat) (a1 : Account)
    (hfz : fuzzyNameIdx A1 (normalize_name p.fullName) = some k)
    (hA1k : A1[k]? = some a1) (hm : a1.normalizedName = m) :
    sugRaw A1 p =
      (if normalize_name p.fullName ≠ m then
        some { enteredName := p.fullName, suggestedName := a1.fullName } else none) := by
  unfold sugRaw
  rw [hfz]
  show ((match A1[k]? with
    | none => none
    | some a0 =>
      if normalize_name p.fullName ≠ a0.normalizedName then
        some { enteredName := p.fullName, suggestedName := a0.fullName }
      else none : Option Suggestion)) = _
  rw [hA1k]
  show ((if normalize_name p.fullName ≠ a1.normalizedName then
      some { enteredName := p.fullName, suggestedName := a1.fullName }
    else none : Option Suggestion)) = _
  rw [hm]

theorem pass2Sim_step (A1 : List Account) (M1 : List Nat) (R1 : List Resolved)
    (P : List (Nat × Payment)) (ip : Nat × Payment)
    (hip : ip.1 ∉ P.map Prod.fst) :
    pass2Step (A1.map (fun a => a.normalizedName)) (pass2Sim A1 M1 R1 P) ip =
      pass2Sim A1 M1 R1 (P ++ [ip]) := by
  have hnotmem : ip.1 ∉ (P.filter (pass2Cond A1 M1)).map Prod.fst := by
    intro hmem
    rcases List.mem_map.mp hmem with ⟨x, hx, hx1⟩
    exact hip (List.mem_map.mpr ⟨x, List.mem_of_mem_filter hx, hx1⟩)
  have hcontains : (pass2Sim A1 M1 R1 P).matched.contains ip.1 = M1.contains ip.1 := by
    show (M1 ++ (P.filter (pass2Cond A1 M1)).map Prod.fst).contains ip.1 = M1.contains ip.1
    exact contains_append_of_not_mem_right hnotmem
  unfold pass2Step
  cases hM : M1.contains ip.1 with
  | true =>
    rw [if_pos (hcontains.trans hM)]
    exact (pass2Sim_append_skip A1 M1 R1 P ip (by rw [hM]; rfl)).symm
  | false =>
    have hc : ¬((pass2Sim A1 M1 R1 P).matched.contains ip.1 = true) := by
      rw [hcontains, hM]
      exact Bool.false_ne_true
    rw [if_neg hc]
    by_cases hq : normalize_name ip.2.fullName = ""
    · rw [if_pos hq]
      have hfz : fuzzyNameIdx A1 (normalize_name ip.2.fullName) = none := by
        unfold fuzzyNameIdx
        rw [if_pos hq]
      exact (pass2Sim_append_skip A1 M1 R1 P ip (by rw [hfz]; exact Bool.and_false _)).symm
    · rw [if_neg hq]
      cases hm : getCloseMatch1 (normalize_name ip.2.fullName)
          (A1.map (fun a => a.normalizedName)) FUZZY_CUTOFF with
      | none =>
        have hfz : fuzzyNameIdx A1 (normalize_name ip.2.fullName) = none := by
          unfold fuzzyNameIdx
          rw [if_neg hq, hm]
        exact (pass2Sim_append_skip A1 M1 R1 P ip (by rw [hfz]; exact Bool.and_false _)).symm
      | some m =>
        show @Eq Pass2State
          (match (pass2Sim A1 M1 R1 P).accounts.find? (fun a => a.normalizedName == m) with
          | none => pass2Sim A1 M1 R1 P
          | some a0 =>
            { accounts := updateFirst (fun a => a.normalizedName == m) (applyPayment ip.2)
                (pass2Sim A1 M1 R1 P).accounts,
              matched := (pass2Sim A1 M1 R1 P).matched ++ [ip.1],
              resolved := (pass2Sim A1 M1 R1 P).resolved.map (fun rp =>
                if rp.normalizedName == normalize_name ip.2.fullName &&
                    rp.matchKind == MatchKind.unmatched then
                  { rp with
                    resolvedStudentID := some a0.studentID,
                    matchKind := MatchKind.byFuzzyName }
                else rp),
              suggestions := (pass2Sim A1 M1 R1 P).suggestions ++
                (if normalize_name ip.2.fullName ≠ m then
                  [{ enteredName := ip.2.fullName, suggestedName := a0.fullName }]
                 else []) })
          (pass2Sim A1 M1 R1 (P ++ [ip]))
        have hfidx : (pass2Sim A1 M1 R1 P).accounts.findIdx?
            (fun a => a.normalizedName == m) = A1.findIdx? (fun a => a.normalizedName == m) := by
          have hstab : (pass2Sim A1 M1 R1 P).accounts.map (fun a => a.normalizedName) =
              A1.map (fun a => a.normalizedName) :=
            pass2Sim_accounts_map (fun a => a.normalizedName) (fun _ _ => rfl) A1 M1 R1 P
          show (pass2Sim A1 M1 R1 P).accounts.findIdx?
              (fun a => (fun s => s == m) ((fun a => a.normalizedName) a)) = _
          rw [findIdx?_comp_congr (fun a => a.normalizedName) (fun s => s == m) hstab]
        cases hk : A1.findIdx? (fun a => a.normalizedName == m) with
        | none =>
          have hfind : (pass2Sim A1 M1 R1 P).accounts.find?
              (fun a => a.normalizedName == m) = none :=
            (find?_none_iff_findIdx?_none _ _).mpr (hfidx.trans hk)
          rw [hfind]
          have hfz : fuzzyNameIdx A1 (normalize_name ip.2.fullName) = none := by
            unfold fuzzyNameIdx
            rw [if_neg hq, hm]
            exact hk
          exact (pass2Sim_append_skip A1 M1 R1 P ip (by rw [hfz]; exact Bool.and_false _)).symm
        | some k =>
          have hfz : fuzzyNameIdx A1 (normalize_name ip.2.fullName) = some k := by
            unfold fuzzyNameIdx
            rw [if_neg hq, hm]
            exact hk
          have hcond : pass2Cond A1 M1 ip = true := by
            unfold pass2Cond
            rw [hM, hfz]
            rfl
          obtain ⟨hklt, hpk, -⟩ := List.findIdx?_eq_some_iff_getElem.mp hk
          have hnm : A1[k].normalizedName = m := eq_of_beq hpk
          have hA1k : A1[k]? = some A1[k] := List.getElem?_eq_getElem hklt
          have hfind : (pass2Sim A1 M1 R1 P).accounts.find? (fun a => a.normalizedName == m) =
              some (payFold A1[k] ((P.filter (fun jp =>
                !(M1.contains jp.1) &&
                  (fuzzyNameIdx A1 (normalize_name jp.2.fullName) == some k))).map
                (fun jp => jp.2))) := by
            rw [find?_of_findIdx?_some _ _ k (hfidx.trans hk), pass2Sim_accounts_getElem?, hA1k]
            rfl
          rw [hfind]
          have hMat : (pass2Sim A1 M1 R1 P).matched ++ [ip.1] =
              (pass2Sim A1 M1 R1 (P ++ [ip])).matched := by
            show (M1 ++ (P.filter (pass2Cond A1 M1)).map (fun x => x.1)) ++ [ip.1] =
              M1 ++ ((P ++ [ip]).filter (pass2Cond A1 M1)).map (fun x => x.1)
            rw [List.filter_append, List.filter_cons, if_pos hcond, List.filter_nil,
              List.map_append, List.append_assoc]
            rfl
          have hAcc : updateFirst (fun a => a.normalizedName == m) (applyPayment ip.2)
              (pass2Sim A1 M1 R1 P).accounts = (pass2Sim A1 M1 R1 (P ++ [ip])).accounts := by
            apply List.ext_getElem?
            intro j
            rw [updateFirst_getElem?, hfidx, hk, pass2Sim_accounts_getElem?,
              pass2Sim_accounts_getElem?, List.filter_append, List.filter_cons, List.filter_nil]
            by_cases hjk : k = j
            · subst hjk
              rw [if_pos rfl]
              have hcnd : (!(M1.contains ip.1) &&
                  (fuzzyNameIdx A1 (normalize_name ip.2.fullName) == some k)) = true := by
                rw [hM, hfz]
                simp
              rw [if_pos hcnd, List.map_append]
              cases hA : A1[k]? with
              | none => rfl
              | some a =>
                show some (applyPayment ip.2 (payFold a ((P.filter (fun jp =>
                    !(M1.contains jp.1) &&
                      (fuzzyNameIdx A1 (normalize_name jp.2.fullName) == some k))).map
                    (fun jp => jp.2)))) =
                  some (payFold a (((P.filter (fun jp =>
                    !(M1.contains jp.1) &&
                      (fuzzyNameIdx A1 (normalize_name jp.2.fullName) == some k))).map
                    (fun jp => jp.2)) ++ [ip.2]))
                rw [payFold_append]
                rfl
            · have hne : ¬(some k = some j) := fun h => hjk (Option.some.inj h)
              rw [if_neg hne]
              have hcnd : (!(M1.contains ip.1) &&
                  (fuzzyNameIdx A1 (normalize_name ip.2.fullName) == some j)) = false := by
                rw [hfz]
                simp [hjk]
              rw [hcnd, if_neg Bool.false_ne_true, List.map_append, List.map_nil,
                List.append_nil]
          have hRes : (pass2Sim A1 M1 R1 P).resolved.map (fun rp =>
              if rp.normalizedName == normalize_name ip.2.fullName &&
                  rp.matchKind == MatchKind.unmatched then
                { rp with
                  resolvedStudentID :=
                    some (payFold A1[k] ((P.filter (fun jp =>
                      !(M1.contains jp.1) &&
                        (fuzzyNameIdx A1 (normalize_name jp.2.fullName) == some k))).map
                      (fun jp => jp.2))).studentID,
                  matchKind := MatchKind.byFuzzyName }
              else rp) = (pass2Sim A1 M1 R1 (P ++ [ip])).resolved := by
            show (R1.map (fun rp =>
                if rp.matchKind == MatchKind.unmatched &&
                    P.any (fun jp => pass2Cond A1 M1 jp &&
                      (normalize_name jp.2.fullName == rp.normalizedName)) then markRp A1 rp
                else rp)).map _ = R1.map (fun rp =>
                if rp.matchKind == MatchKind.unmatched &&
                    (P ++ [ip]).any (fun jp => pass2Cond A1 M1 jp &&
                      (normalize_name jp.2.fullName == rp.normalizedName)) then markRp A1 rp
                else rp)
            rw [List.map_map]
            apply List.map_congr_left
            intro rp _
            exact markStep_compose A1 M1 P ip k (payFold A1[k] ((P.filter (fun jp =>
                !(M1.contains jp.1) &&
                  (fuzzyNameIdx A1 (normalize_name jp.2.fullName) == some k))).map
                (fun jp => jp.2))).studentID hM hfz
              (by rw [hA1k]; show some (A1[k]).studentID = _; rw [payFold_studentID]) rp
          have hSug : (pass2Sim A1 M1 R1 P).suggestions ++
              (if normalize_name ip.2.fullName ≠ m then
                [{ enteredName := ip.2.fullName,
                   suggestedName := (payFold A1[k] ((P.filter (fun jp =>
                     !(M1.contains jp.1) &&
                       (fuzzyNameIdx A1 (normalize_name jp.2.fullName) == some k))).map
                     (fun jp => jp.2))).fullName }] else []) =
              (pass2Sim A1 M1 R1 (P ++ [ip])).suggestions := by
            show P.filterMap (fun jp => if pass2Cond A1 M1 jp then sugRaw A1 jp.2 else none)
                ++ _ =
              (P ++ [ip]).filterMap
                (fun jp => if pass2Cond A1 M1 jp then sugRaw A1 jp.2 else none)
            rw [List.filterMap_append, List.filterMap_cons, if_pos hcond,
              sugRaw_eq A1 ip.2 m k A1[k] hfz hA1k hnm]
            by_cases hqm : normalize_name ip.2.fullName ≠ m
            · rw [if_pos hqm, if_pos hqm, payFold_fullName, List.filterMap_nil]
            · rw [if_neg hqm, if_neg hqm, List.filterMap_nil]
          show Pass2State.mk
              (updateFirst (fun a => a.normalizedName == m) (applyPayment ip.2)
                (pass2Sim A1 M1 R1 P).accounts)
              ((pass2Sim A1 M1 R1 P).matched ++ [ip.1])
              ((pass2Sim A1 M1 R1 P).resolved.map (fun rp =>
                if rp.normalizedName == normalize_name ip.2.fullName &&
                    rp.matchKind == MatchKind.unmatched then
                  { rp with
                    resolvedStudentID :=
                      some (payFold A1[k] ((P.filter (fun jp =>
                        !(M1.contains jp.1) &&
                          (fuzzyNameIdx A1 (normalize_name jp.2.fullName) == some k))).map
                        (fun jp => jp.2))).studentID,
                    matchKind := MatchKind.byFuzzyName }
                else rp))
              ((pass2Sim A1 M1 R1 P).suggestions ++
                (if normalize_name ip.2.fullName ≠ m then
                  [{ enteredName := ip.2.fullName,
                     suggestedName := (payFold A1[k] ((P.filter (fun jp =>
                       !(M1.contains jp.1) &&
                         (fuzzyNameIdx A1 (normalize_name jp.2.fullName) == some k))).map
                       (fun jp => jp.2))).fullName }] else [])) =
            pass2Sim A1 M1 R1 (P ++ [ip])
          rw [hAcc, hMat, hRes, hSug]

theorem pass2Sim_nil (A1 : List Account) (M1 : List Nat) (R1 : List Resolved) :
    pass2Sim A1 M1 R1 [] = ⟨A1, M1, R1, []⟩ := by
  have hres : ∀ rp : Resolved, (if rp.matchKind == MatchKind.unmatched &&
      ([] : List (Nat × Payment)).any (fun jp => pass2Cond A1 M1 jp &&
        (normalize_name jp.2.fullName == rp.normalizedName)) then markRp A1 rp else rp) = rp := by
    intro rp
    rw [List.any_nil, Bool.and_false]
    exact if_neg Bool.false_ne_true
  have hacc : A1.enum.map (fun ka : Nat × Account =>
      payFold ka.2 ((([] : List (Nat × Payment)).filter (fun ip =>
        !(M1.contains ip.1) &&
          (fuzzyNameIdx A1 (normalize_name ip.2.fullName) == some ka.1))).map
        (fun ip => ip.2))) = A1 := by
    show A1.enum.map Prod.snd = A1
    exact List.enum_map_snd A1
  have hrs : R1.map (fun rp => if rp.matchKind == MatchKind.unmatched &&
      ([] : List (Nat × Payment)).any (fun jp => pass2Cond A1 M1 jp &&
        (normalize_name jp.2.fullName == rp.normalizedName)) then markRp A1 rp else rp) =
      R1.map (fun rp => rp) :=
    List.map_congr_left (fun rp _ => hres rp)
  unfold pass2Sim
  rw [hacc, hrs, List.map_id', List.filter_nil, List.map_nil, List.append_nil,
    List.filterMap_nil]

theorem pass2_fold (A1 : List Account) (M1 : List Nat) (R1 : List Resolved)
    (R : List (Nat × Payment)) :
    ∀ P : List (Nat × Payment), ((P ++ R).map Prod.fst).Nodup →
      R.foldl (pass2Step (A1.map (fun a => a.normalizedName))) (pass2Sim A1 M1 R1 P) =
        pass2Sim A1 M1 R1 (P ++ R) := by
  induction R with
  | nil =>
    intro P _
    rw [List.foldl_nil, List.append_nil]
  | cons ip R ih =>
    intro P hnd
    have hip : ip.1 ∉ P.map Prod.fst := by
      rw [List.map_append] at hnd
      rcases List.nodup_append.mp hnd with ⟨h1, h2, hdisj⟩
      intro hmem
      exact hdisj hmem (by rw [List.map_cons]; exact List.mem_cons_self _ _)
    rw [List.foldl_cons, pass2Sim_step A1 M1 R1 P ip hip]
    have hnd' : (((P ++ [ip]) ++ R).map Prod.fst).Nodup := by
      rw [← List.append_cons]
      exact hnd
    rw [ih (P ++ [ip]) hnd', ← List.append_cons]

theorem pass1_accounts_getElem0 (A0 : List Account) (ips : List (Nat × Payment)) (k : Nat) :
    ((ips.foldl pass1Step ⟨A0, [], []⟩).accounts)[k]? =
      (A0[k]?).map (fun a =>
        payFold a ((ips.filter (fun ip => exactIdx A0 ip.2 == some k)).map (fun ip => ip.2))) :=
  pass1_accounts_getElem? ips ⟨A0, [], []⟩ k

theorem pass1_matched0 (A0 : List Account) (ips : List (Nat × Payment)) :
    (ips.foldl pass1Step ⟨A0, [], []⟩).matched =
      (ips.filter (fun ip => (exactIdx A0 ip.2).isSome)).map (fun ip => ip.1) :=
  (pass1_matched ips ⟨A0, [], []⟩).trans (List.nil_append _)

theorem pass1_resolved0 (A0 : List Account) (ips : List (Nat × Payment)) :
    (ips.foldl pass1Step ⟨A0, [], []⟩).resolved = ips.map (fun ip => rp1 A0 ip.2) :=
  (pass1_resolved ips ⟨A0, [], []⟩).trans (List.nil_append _)

theorem pass1_contains (A0 : List Account) (payments : List Payment)
    (ip : Nat × Payment) (hmem : ip ∈ payments.enum) :
    (payments.enum.foldl pass1Step ⟨A0, [], []⟩).matched.contains ip.1 =
      (exactIdx A0 ip.2).isSome := by
  rw [pass1_matched0]
  cases hx : (exactIdx A0 ip.2).isSome with
  | true =>
    have hmem2 : ip.1 ∈ (payments.enum.filter (fun jp => (exactIdx A0 jp.2).isSome)).map
        (fun jp => jp.1) :=
      List.mem_map.mpr ⟨ip, List.mem_filter.mpr ⟨hmem, hx⟩, rfl⟩
    show ((payments.enum.filter (fun jp => (exactIdx A0 jp.2).isSome)).map
        (fun jp => jp.1)).elem ip.1 = true
    simp [List.elem_eq_mem, hmem2]
  | false =>
    have hnmem : ip.1 ∉ (payments.enum.filter (fun jp => (exactIdx A0 jp.2).isSome)).map
        (fun jp => jp.1) := by
      intro hmem2
      rcases List.mem_map.mp hmem2 with ⟨jp, hjf, hj1⟩
      rcases List.mem_filter.mp hjf with ⟨hjenum, hjsome⟩
      have e1 : payments[jp.1]? = some jp.2 := List.mem_enum_iff_getElem?.mp hjenum
      have e2 : payments[ip.1]? = some ip.2 := List.mem_enum_iff_getElem?.mp hmem
      rw [hj1, e2] at e1
      have e3 : jp.2 = ip.2 := (Option.some.inj e1).symm
      rw [e3, hx] at hjsome
      exact Bool.false_ne_true hjsome
    show ((payments.enum.filter (fun jp => (exactIdx A0 jp.2).isSome)).map
        (fun jp => jp.1)).elem ip.1 = false
    simp [List.elem_eq_mem, hnmem]

theorem fuzzyNameIdx_congr {l l' : List Account}
    (h : l.map (fun a => a.normalizedName) = l'.map (fun a => a.normalizedName)) (q : String) :
    fuzzyNameIdx l q = fuzzyNameIdx l' q := by
  unfold fuzzyNameIdx
  by_cases hq : q = ""
  · rw [if_pos hq, if_pos hq]
  · rw [if_neg hq, if_neg hq, h]
    cases hg : getCloseMatch1 q (l'.map (fun a => a.normalizedName)) FUZZY_CUTOFF with
    | none => rfl
    | some m =>
      show l.findIdx? (fun a => (fun s => s == m) ((fun a => a.normalizedName) a)) = _
      rw [findIdx?_comp_congr (fun a => a.normalizedName) (fun s => s == m) h]

theorem fuzzyNameIdx_lt (accounts : List Account) (q : String) (j : Nat)
    (h : fuzzyNameIdx accounts q = some j) : j < accounts.length := by
  unfold fuzzyNameIdx at h
  by_cases hq : q = ""
  · rw [if_pos hq] at h
    cases h
  · rw [if_neg hq] at h
    cases hg : getCloseMatch1 q (accounts.map (fun a => a.normalizedName)) FUZZY_CUTOFF with
    | none =>
      rw [hg] at h
      exact Option.noConfusion h
    | some m =>
      rw [hg] at h
      obtain ⟨hlt, -, -⟩ := List.findIdx?_eq_some_iff_getElem.mp h
      exact hlt

theorem enum_filter_snd (c : Payment → Bool) (l : List Payment) :
    (l.enum.filter (fun ip => c ip.2)).map (fun ip => ip.2) = l.filter c := by
  have h1 : l.filter c = (l.enum.map Prod.snd).filter c := by
    rw [List.enum_map_snd]
  rw [h1, List.filter_map]
  rfl

theorem foldl_pass2_eq_pass2Sim (A1 : List Account) (M1 : List Nat) (R1 : List Resolved)
    (payments : List Payment) :
    payments.enum.foldl (pass2Step (A1.map (fun a => a.normalizedName))) ⟨A1, M1, R1, []⟩ =
      pass2Sim A1 M1 R1 payments.enum := by
  have hnodup : ((([] : List (Nat × Payment)) ++ payments.enum).map Prod.fst).Nodup := by
    rw [List.nil_append, List.enum_map_fst]
    exact List.nodup_range _
  have h2 := pass2_fold A1 M1 R1 payments.enum [] hnodup
  rw [pass2Sim_nil, List.nil_append] at h2
  exact h2

theorem selectedOf_init (members : List Member) (a : Account) (ha : a ∈ selectedOf members) :
    a.paidAmount = 0 ∧ a.outstanding = ANNUAL_FEE ∧ a.paymentDate = none := by
  rcases List.mem_map.mp ha with ⟨m, hm, rfl⟩
  exact ⟨rfl, rfl, rfl⟩

theorem setStatus_payFold_eq (a0 : Account) (ms : List Payment)
    (h0 : a0.paidAmount = 0) (hout : a0.outstanding = ANNUAL_FEE)
    (hdate : a0.paymentDate = none) :
    { payFold a0 ms with paidStatus := statusOf (payFold a0 ms).paidAmount } =
      { a0 with
        paidAmount := amountSum ms,
        outstanding := max 0 (ANNUAL_FEE - amountSum ms),
        paymentDate := match ms.getLast? with | none => none | some p => p.paymentDate,
        paidStatus := statusOf (amountSum ms) } := by
  show Account.mk (payFold a0 ms).studentID (payFold a0 ms).fullName (payFold a0 ms).team
      (payFold a0 ms).normalizedName (payFold a0 ms).paidAmount
      (statusOf (payFold a0 ms).paidAmount) (payFold a0 ms).outstanding
      (payFold a0 ms).paymentDate = _
  rw [payFold_paidAmount, payFold_outstanding, payFold_paymentDate, payFold_studentID,
    payFold_fullName, payFold_team, payFold_normalizedName, h0, hout, hdate, zero_add]
  cases ms with
  | nil =>
    rw [if_pos (show ([] : List Payment).isEmpty = true by rfl),
      show amountSum ([] : List Payment) = (0 : Rat) from rfl, sub_zero,
      max_eq_right (by norm_num [ANNUAL_FEE] : (0 : Rat) ≤ ANNUAL_FEE)]
  | cons p ms' =>
    rw [if_neg (by simp : ¬((p :: ms').isEmpty = true))]

theorem reconcile_selected_getElem? (members : List Member) (payments : List Payment) (k : Nat) :
    (reconcile members payments).selected[k]? =
      ((selectedOf members)[k]?).map (finalAccount (selectedOf members) payments k) := by
  have hsel : (reconcile members payments).selected =
      (pass2Sim (payments.enum.foldl pass1Step ⟨selectedOf members, [], []⟩).accounts
        (payments.enum.foldl pass1Step ⟨selectedOf members, [], []⟩).matched
        (payments.enum.foldl pass1Step ⟨selectedOf members, [], []⟩).resolved
        payments.enum).accounts.map (fun a => { a with paidStatus := statusOf a.paidAmount }) := by
    have hsel1 : (reconcile members payments).selected =
        (payments.enum.foldl (pass2Step
          ((payments.enum.foldl pass1Step ⟨selectedOf members, [], []⟩).accounts.map
            (fun a => a.normalizedName)))
          ⟨(payments.enum.foldl pass1Step ⟨selectedOf members, [], []⟩).accounts,
           (payments.enum.foldl pass1Step ⟨selectedOf members, [], []⟩).matched,
           (payments.enum.foldl pass1Step ⟨selectedOf members, [], []⟩).resolved,
           []⟩).accounts.map
          (fun a : Account => { a with paidStatus := statusOf a.paidAmount }) := rfl
    rw [foldl_pass2_eq_pass2Sim] at hsel1
    exact hsel1
  rw [hsel, List.getElem?_map, pass2Sim_accounts_getElem?, pass1_accounts_getElem0]
  have hcondeq : ∀ ip2 ∈ payments.enum,
      (!((payments.enum.foldl pass1Step ⟨selectedOf members, [], []⟩).matched.contains ip2.1) &&
        (fuzzyNameIdx (payments.enum.foldl pass1Step ⟨selectedOf members, [], []⟩).accounts
          (normalize_name ip2.2.fullName) == some k)) =
      (fuzzyIdx (selectedOf members) ip2.2 == some k) := by
    intro ip2 hip2
    have hstab : (payments.enum.foldl pass1Step
        ⟨selectedOf members, [], []⟩).accounts.map (fun a => a.normalizedName) =
        (selectedOf members).map (fun a => a.normalizedName) :=
      pass1_accounts_map (fun a => a.normalizedName) (fun _ _ => rfl) payments.enum
        ⟨selectedOf members, [], []⟩
    rw [pass1_contains (selectedOf members) payments ip2 hip2,
      fuzzyNameIdx_congr hstab (normalize_name ip2.2.fullName)]
    unfold fuzzyIdx
    cases hx : (exactIdx (selectedOf members) ip2.2).isSome with
    | true =>
      rw [if_pos rfl]
      simp [none_beq_some]
    | false =>
      rw [if_neg Bool.false_ne_true]
      simp
  rw [List.filter_congr hcondeq,
    enum_filter_snd (fun p => exactIdx (selectedOf members) p == some k) payments,
    enum_filter_snd (fun p => fuzzyIdx (selectedOf members) p == some k) payments,
    Option.map_map, Option.map_map]
  cases hA : (selectedOf members)[k]? with
  | none => rfl
  | some a0 =>
    have hmem : a0 ∈ selectedOf members := List.getElem?_mem hA
    obtain ⟨h1, h2, h3⟩ := selectedOf_init members a0 hmem
    show some ({ payFold (payFold a0 (payments.filter
        (fun p => exactIdx (selectedOf members) p == some k)))
        (payments.filter (fun p => fuzzyIdx (selectedOf members) p == some k)) with
      paidStatus := statusOf (payFold (payFold a0 (payments.filter
        (fun p => exactIdx (selectedOf members) p == some k)))
        (payments.filter (fun p => fuzzyIdx (selectedOf members) p == some k))).paidAmount }) =
      some (finalAccount (selectedOf members) payments k a0)
    rw [← payFold_append]
    exact congrArg some (setStatus_payFold_eq a0 _ h1 h2 h3)

theorem rp1_normalizedName (accounts : List Account) (p : Payment) :
    (rp1 accounts p).normalizedName = normalize_name p.fullName := by
  unfold rp1
  split
  · rfl
  · split
    · rfl
    · rfl

theorem rp1_payment (accounts : List Account) (p : Payment) :
    (rp1 accounts p).payment = p := by
  unfold rp1
  split
  · rfl
  · split
    · rfl
    · rfl

theorem rp1_matchKind (accounts : List Account) (p : Payment) :
    (rp1 accounts p).matchKind =
      (if (exactIdx accounts p).isSome then MatchKind.byStudentID else MatchKind.unmatched) := by
  unfold rp1 exactIdx
  split
  · rename_i heq
    rw [heq]
    rfl
  · rename_i sid heq
    rw [heq]
    simp only [Option.some_bind]
    split
    · rename_i hf
      simp only [(find?_none_iff_findIdx?_none _ _).mp hf]
      rfl
    · rename_i a0 hf
      have h2 : accounts.findIdx? (fun a => a.studentID == sid) ≠ none := by
        intro hn
        rw [(find?_none_iff_findIdx?_none _ _).mpr hn] at hf
        cases hf
      have h3 : (accounts.findIdx? (fun a => a.studentID == sid)).isSome = true :=
        Option.isSome_iff_ne_none.mpr h2
      simp only [h3]
      rfl

theorem rp1_of_exact_none (accounts : List Account) (p : Payment)
    (h : exactIdx accounts p = none) : rp1 accounts p = mkResolved p := by
  unfold rp1
  unfold exactIdx at h
  split
  · rfl
  · rename_i sid heq
    rw [heq] at h
    simp only [Option.some_bind] at h
    rw [(find?_none_iff_findIdx?_none _ _).mpr h]

theorem rp1_rsid (accounts : List Account) (p : Payment) (sid : String) (j : Nat)
    (hsd : p.studentID = some sid)
    (hfind : accounts.findIdx? (fun a => a.studentID == sid) = some j)
    (hjlt : j < accounts.length) :
    (rp1 accounts p).resolvedStudentID = some ((accounts[j]).studentID) := by
  unfold rp1
  rw [hsd]
  show (match accounts.find? (fun a => a.studentID == sid) with
    | none => mkResolved p
    | some a0 =>
      { mkResolved p with
        resolvedStudentID := some a0.studentID,
        matchKind := MatchKind.byStudentID } : Resolved).resolvedStudentID =
    some ((accounts[j]).studentID)
  rw [find?_of_findIdx?_some _ _ j hfind, List.getElem?_eq_getElem hjlt]

theorem rpFinal_payment (accounts : List Account) (p : Payment) :
    (rpFinal accounts p).payment = p := by
  unfold rpFinal
  split
  · exact rp1_payment accounts p
  · split
    · rfl
    · rfl

theorem markIf_rp1 (A0 A1 : List Account) (M1v : List Nat) (payments : List Payment)
    (hA1n : A1.map (fun a => a.normalizedName) = A0.map (fun a => a.normalizedName))
    (hA1s : A1.map (fun a => a.studentID) = A0.map (fun a => a.studentID))
    (hM : ∀ jp ∈ payments.enum, M1v.contains jp.1 = (exactIdx A0 jp.2).isSome)
    (ip : Nat × Payment) (hip : ip ∈ payments.enum) :
    (if (rp1 A0 ip.2).matchKind == MatchKind.unmatched &&
        payments.enum.any (fun jp => pass2Cond A1 M1v jp &&
          (normalize_name jp.2.fullName == (rp1 A0 ip.2).normalizedName)) then
      markRp A1 (rp1 A0 ip.2)
    else rp1 A0 ip.2) = rpFinal A0 ip.2 := by
  have hrn : (rp1 A0 ip.2).normalizedName = normalize_name ip.2.fullName :=
    rp1_normalizedName A0 ip.2
  cases hex : exactIdx A0 ip.2 with
  | some j =>
    have c1 : ((rp1 A0 ip.2).matchKind == MatchKind.unmatched &&
        payments.enum.any (fun jp => pass2Cond A1 M1v jp &&
          (normalize_name jp.2.fullName == (rp1 A0 ip.2).normalizedName))) = false := by
      have hmk : (rp1 A0 ip.2).matchKind = MatchKind.byStudentID := by
        rw [rp1_matchKind, hex]
        rfl
      rw [hmk]
      simp
    rw [c1, if_neg Bool.false_ne_true]
    unfold rpFinal
    rw [hex]
  | none =>
    have hmku : ((rp1 A0 ip.2).matchKind == MatchKind.unmatched) = true := by
      rw [rp1_matchKind, hex]
      rfl
    have hrpeq : rp1 A0 ip.2 = mkResolved ip.2 := rp1_of_exact_none A0 ip.2 hex
    cases hf : fuzzyNameIdx A0 (normalize_name ip.2.fullName) with
    | some j =>
      have hany : payments.enum.any (fun jp => pass2Cond A1 M1v jp &&
          (normalize_name jp.2.fullName == (rp1 A0 ip.2).normalizedName)) = true := by
        rw [List.any_eq_true]
        refine ⟨ip, hip, ?_⟩
        have hc : pass2Cond A1 M1v ip = true := by
          unfold pass2Cond
          rw [hM ip hip, hex,
            fuzzyNameIdx_congr hA1n (normalize_name ip.2.fullName), hf]
          rfl
        rw [hc, hrn, beq_self_eq_true]
        rfl
      have ctrue : ((rp1 A0 ip.2).matchKind == MatchKind.unmatched &&
          payments.enum.any (fun jp => pass2Cond A1 M1v jp &&
            (normalize_name jp.2.fullName == (rp1 A0 ip.2).normalizedName))) = true := by
        rw [hmku, hany]
        rfl
      rw [ctrue, if_pos rfl]
      have hfi : fuzzyIdx A0 ip.2 = some j := by
        unfold fuzzyIdx
        rw [hex,
          if_neg (show ¬(((none : Option Nat)).isSome = true) from Bool.false_ne_true)]
        exact hf
      unfold rpFinal
      rw [hex, hfi]
      unfold markRp
      rw [hrn, fuzzyNameIdx_congr hA1n (normalize_name ip.2.fullName), hf]
      simp only [Option.some_bind]
      have hsid : (A1[j]?).map (fun a => a.studentID) = (A0[j]?).map (fun a => a.studentID) := by
        rw [← List.getElem?_map, ← List.getElem?_map, hA1s]
      rw [hsid, hrpeq]
      rfl
    | none =>
      have hany : payments.enum.any (fun jp => pass2Cond A1 M1v jp &&
          (normalize_name jp.2.fullName == (rp1 A0 ip.2).normalizedName)) = false := by
        rw [List.any_eq_false]
        intro jp hjp
        intro hcontra
        obtain ⟨hA, hB⟩ := Bool.and_eq_true_iff.mp hcontra
        rw [hrn] at hB
        have hqj : normalize_name jp.2.fullName = normalize_name ip.2.fullName := eq_of_beq hB
        unfold pass2Cond at hA
        obtain ⟨hA1b, hA2⟩ := Bool.and_eq_true_iff.mp hA
        rw [hqj, fuzzyNameIdx_congr hA1n (normalize_name ip.2.fullName), hf] at hA2
        exact Bool.false_ne_true hA2
      have cfalse : ((rp1 A0 ip.2).matchKind == MatchKind.unmatched &&
          payments.enum.any (fun jp => pass2Cond A1 M1v jp &&
            (normalize_name jp.2.fullName == (rp1 A0 ip.2).normalizedName))) = false := by
        rw [hany, Bool.and_false]
      rw [cfalse, if_neg Bool.false_ne_true]
      have hfi : fuzzyIdx A0 ip.2 = none := by
        unfold fuzzyIdx
        rw [hex,
          if_neg (show ¬(((none : Option Nat)).isSome = true) from Bool.false_ne_true)]
        exact hf
      unfold rpFinal
      rw [hex, hfi]
      exact hrpeq

theorem resolved_char (A0 A1 : List Account) (M1v : List Nat) (payments : List Payment)
    (hA1n : A1.map (fun a => a.normalizedName) = A0.map (fun a => a.normalizedName))
    (hA1s : A1.map (fun a => a.studentID) = A0.map (fun a => a.studentID))
    (hM : ∀ jp ∈ payments.enum, M1v.contains jp.1 = (exactIdx A0 jp.2).isSome) :
    (pass2Sim A1 M1v (payments.enum.map (fun ip => rp1 A0 ip.2)) payments.enum).resolved =
      payments.map (fun p => rpFinal A0 p) := by
  have h0 : (pass2Sim A1 M1v (payments.enum.map (fun ip => rp1 A0 ip.2))
      payments.enum).resolved =
      (payments.enum.map (fun ip => rp1 A0 ip.2)).map
        (fun rp => if rp.matchKind == MatchKind.unmatched &&
            payments.enum.any (fun ip => pass2Cond A1 M1v ip &&
              (normalize_name ip.2.fullName == rp.normalizedName)) then markRp A1 rp
          else rp) := rfl
  rw [h0, List.map_map]
  have hrhs : payments.enum.map (fun ip => rpFinal A0 ip.2) =
      payments.map (fun p => rpFinal A0 p) := by
    conv_rhs => rw [← List.enum_map_snd payments]
    rw [List.map_map]
    rfl
  rw [← hrhs]
  apply List.map_congr_left
  intro ip hip
  exact markIf_rp1 A0 A1 M1v payments hA1n hA1s hM ip hip

theorem reconcile_resolved (members : List Member) (payments : List Payment) :
    (reconcile members payments).resolvedPayments =
      payments.map (fun p => rpFinal (selectedOf members) p) := by
  have hres1 : (reconcile members payments).resolvedPayments =
      (pass2Sim (payments.enum.foldl pass1Step ⟨selectedOf members, [], []⟩).accounts
        (payments.enum.foldl pass1Step ⟨selectedOf members, [], []⟩).matched
        (payments.enum.foldl pass1Step ⟨selectedOf members, [], []⟩).resolved
        payments.enum).resolved := by
    have h0 : (reconcile members payments).resolvedPayments =
        (payments.enum.foldl (pass2Step
          ((payments.enum.foldl pass1Step ⟨selectedOf members, [], []⟩).accounts.map
            (fun a => a.normalizedName)))
          ⟨(payments.enum.foldl pass1Step ⟨selectedOf members, [], []⟩).accounts,
           (payments.enum.foldl pass1Step ⟨selectedOf members, [], []⟩).matched,
           (payments.enum.foldl pass1Step ⟨selectedOf members, [], []⟩).resolved,
           []⟩).resolved := rfl
    rw [foldl_pass2_eq_pass2Sim] at h0
    exact h0
  rw [hres1, pass1_resolved0]
  exact resolved_char (selectedOf members) _ _ payments
    (pass1_accounts_map (fun a => a.normalizedName) (fun _ _ => rfl) payments.enum
      ⟨selectedOf members, [], []⟩)
    (pass1_accounts_map (fun a => a.studentID) (fun _ _ => rfl) payments.enum
      ⟨selectedOf members, [], []⟩)
    (fun jp hjp => pass1_contains (selectedOf members) payments jp hjp)

theorem amountSum_filter_or (p q : Payment → Bool) (l : List Payment)
    (hpq : ∀ x ∈ l, ¬(p x = true ∧ q x = true)) :
    amountSum (l.filter (fun x => p x || q x)) =
      amountSum (l.filter p) + amountSum (l.filter q) := by
  induction l with
  | nil =>
    show amountSum [] = amountSum [] + amountSum []
    rw [show amountSum [] = (0 : Rat) from rfl, add_zero]
  | cons x l ih =>
    have hx := hpq x (List.mem_cons_self x l)
    have ih2 := ih (fun y hy => hpq y (List.mem_cons_of_mem x hy))
    rw [List.filter_cons, List.filter_cons, List.filter_cons]
    cases hp : p x with
    | true =>
      cases hq : q x with
      | true => exact absurd ⟨hp, hq⟩ hx
      | false => simp [amountSum_cons, ih2, add_assoc]
    | false =>
      cases hq : q x with
      | true => simp [amountSum_cons, ih2, add_assoc, add_left_comm]
      | false => simp [ih2]

theorem rpFinal_sid_cond (A0 : List Account)
    (hnd : (A0.map (fun a => a.studentID)).Nodup)
    (k : Nat) (a : Account) (hk : A0[k]? = some a) (p : Payment) :
    ((rpFinal A0 p).resolvedStudentID == some a.studentID) =
      (exactIdx A0 p == some k || fuzzyIdx A0 p == some k) := by
  have hinj : ∀ (j : Nat) (hj : j < A0.length),
      (A0.get ⟨j, hj⟩).studentID = a.studentID → j = k := by
    intro j hjlt he
    rw [List.get_eq_getElem] at he
    have h2 : (A0.map (fun a => a.studentID))[j]? = (A0.map (fun a => a.studentID))[k]? := by
      rw [List.getElem?_map, List.getElem?_map, hk, List.getElem?_eq_getElem hjlt]
      show some (A0[j]).studentID = some a.studentID
      rw [he]
    have h0 : j < (A0.map (fun a => a.studentID)).length := by
      rw [List.length_map]
      exact hjlt
    exact List.getElem?_inj h0 hnd h2
  cases hex : exactIdx A0 p with
  | some j =>
    have hfi : fuzzyIdx A0 p = none := by
      unfold fuzzyIdx
      rw [hex, if_pos (show (some j : Option Nat).isSome = true by rfl)]
    have hex2 := hex
    unfold exactIdx at hex2
    cases hsd : p.studentID with
    | none =>
      rw [hsd] at hex2
      simp only [Option.none_bind] at hex2
      exact Option.noConfusion hex2
    | some sid =>
      rw [hsd] at hex2
      simp only [Option.some_bind] at hex2
      obtain ⟨hjlt, hpj, -⟩ := List.findIdx?_eq_some_iff_getElem.mp hex2
      have hrsid : (rpFinal A0 p).resolvedStudentID = some ((A0[j]).studentID) := by
        unfold rpFinal
        rw [hex]
        exact rp1_rsid A0 p sid j hsd hex2 hjlt
      rw [hrsid, hfi]
      by_cases hjk : j = k
      · have he : (A0[j]).studentID = a.studentID := by
          have h5 := hk
          rw [← hjk] at h5
          rw [List.getElem?_eq_getElem hjlt] at h5
          exact congrArg (fun x => x.studentID) (Option.some.inj h5)
        rw [he, hjk]
        simp [none_beq_some]
      · have hne2 : (A0[j]).studentID ≠ a.studentID := fun he => hjk (hinj j hjlt he)
        simp [hne2, hjk, none_beq_some]
  | none =>
    have hfi2 : fuzzyIdx A0 p = fuzzyNameIdx A0 (normalize_name p.fullName) := by
      unfold fuzzyIdx
      rw [hex,
        if_neg (show ¬(((none : Option Nat)).isSome = true) from Bool.false_ne_true)]
    cases hfz : fuzzyNameIdx A0 (normalize_name p.fullName) with
    | none =>
      have hrsid : (rpFinal A0 p).resolvedStudentID = none := by
        unfold rpFinal
        rw [hex, hfi2, hfz]
        rfl
      rw [hrsid, hfi2, hfz]
      rfl
    | some j =>
      have hjlt : j < A0.length := fuzzyNameIdx_lt A0 (normalize_name p.fullName) j hfz
      have hrsid : (rpFinal A0 p).resolvedStudentID = some ((A0[j]).studentID) := by
        unfold rpFinal
        rw [hex, hfi2, hfz]
        show (A0[j]?).map (fun a0 => a0.studentID) = some ((A0[j]).studentID)
        rw [List.getElem?_eq_getElem hjlt]
        rfl
      rw [hrsid, hfi2, hfz]
      by_cases hjk : j = k
      · have he : (A0[j]).studentID = a.studentID := by
          have h5 := hk
          rw [← hjk] at h5
          rw [List.getElem?_eq_getElem hjlt] at h5
          exact congrArg (fun x => x.studentID) (Option.some.inj h5)
        rw [he, hjk]
        simp [none_beq_some]
      · have hne2 : (A0[j]).studentID ≠ a.studentID := fun he => hjk (hinj j hjlt he)
        simp [hne2, hjk, none_beq_some]

/-- C6: after reconciliation completes, provided the obligated payers carry
pairwise-distinct StudentIDs (the spec's uniqueness assumption), every
Obligation Account's final PaidAmount equals the sum of the amounts of
exactly those payments whose ResolvedStudentID in the resolved-payments
audit trail equals the account's StudentID. -/
theorem C6_paid_eq_resolved (members : List Member) (payments : List Payment)
    (hnd : ((selectedOf members).map (fun a => a.studentID)).Nodup)
    (k : Nat) (a : Account)
    (hk : (reconcile members payments).selected[k]? = some a) :
    a.paidAmount =
      resolvedAmountTo (reconcile members payments).resolvedPayments a.studentID := by
  rw [reconcile_selected_getElem?] at hk
  cases hk0 : (selectedOf members)[k]? with
  | none =>
    rw [hk0] at hk
    simp at hk
  | some a0 =>
    rw [hk0] at hk
    have ha : a = finalAccount (selectedOf members) payments k a0 := (Option.some.inj hk).symm
    subst ha
    show amountSum (matchedTo (selectedOf members) payments k) =
      resolvedAmountTo (reconcile members payments).resolvedPayments a0.studentID
    rw [reconcile_resolved]
    unfold resolvedAmountTo
    rw [List.filter_map, List.map_map]
    have hpay : ((fun rp : Resolved => rp.payment.amount) ∘
        (fun p => rpFinal (selectedOf members) p)) = (fun p : Payment => p.amount) := by
      funext q
      show (rpFinal (selectedOf members) q).payment.amount = q.amount
      rw [rpFinal_payment]
    rw [hpay]
    have hcond : ∀ q ∈ payments,
        ((fun rp : Resolved => rp.resolvedStudentID == some a0.studentID) ∘
          (fun p => rpFinal (selectedOf members) p)) q =
        (exactIdx (selectedOf members) q == some k ||
          fuzzyIdx (selectedOf members) q == some k) :=
      fun q _ => rpFinal_sid_cond (selectedOf members) hnd k a0 hk0 q
    rw [List.filter_congr hcond]
    have hdisj : ∀ x ∈ payments,
        ¬((exactIdx (selectedOf members) x == some k) = true ∧
          (fuzzyIdx (selectedOf members) x == some k) = true) := by
      intro x hx
      rintro ⟨he, hf⟩
      have he2 : exactIdx (selectedOf members) x = some k := eq_of_beq he
      have hf2 : fuzzyIdx (selectedOf members) x = some k := eq_of_beq hf
      unfold fuzzyIdx at hf2
      rw [he2, if_pos (show (some k : Option Nat).isSome = true by rfl)] at hf2
      exact Option.noConfusion hf2
    show amountSum (matchedTo (selectedOf members) payments k) =
      amountSum (payments.filter (fun q =>
        exactIdx (selectedOf members) q == some k ||
          fuzzyIdx (selectedOf members) q == some k))
    rw [amountSum_filter_or (fun q => exactIdx (selectedOf members) q == some k)
      (fun q => fuzzyIdx (selectedOf members) q == some k) payments hdisj]
    show amountSum (payments.filter (fun q => exactIdx (selectedOf members) q == some k) ++
        payments.filter (fun q => fuzzyIdx (selectedOf members) q == some k)) = _
    rw [amountSum_append]

/-- Witness for C6: one obligated payer and no payments; the account's
PaidAmount (0) equals the resolved-trail sum attributed to its StudentID. -/
theorem C6_witness :
    ((selectedOf [mA]).map (fun a => a.studentID)).Nodup ∧
    (reconcile [mA] ([] : List Payment)).selected[0]? = some c6acc ∧
    c6acc.paidAmount =
      resolvedAmountTo (reconcile [mA] ([] : List Payment)).resolvedPayments c6acc.studentID :=
  ⟨by decide, rfl, C6_paid_eq_resolved [mA] [] (by decide) 0 c6acc rfl⟩

/-- C9: an Obligation Account that receives at least one matched payment ends
with the PaymentDate of the last matching payment in processing order (exact
pass in input order, then fuzzy pass in input order) — last-writer-wins, not
the chronologically latest date. -/
theorem C9_last_payment_date (members : List Member) (payments : List Payment) (k : Nat)
    (p : Payment)
    (hlast : (matchedTo (selectedOf members) payments k).getLast? = some p) :
    ((reconcile members payments).selected[k]?).map (fun a => a.paymentDate) =
      some p.paymentDate := by
  have hkex : ∃ a0, (selectedOf members)[k]? = some a0 := by
    have hne : matchedTo (selectedOf members) payments k ≠ [] := by
      intro h0
      rw [h0] at hlast
      cases hlast
    cases hmt : matchedTo (selectedOf members) payments k with
    | nil => exact absurd hmt hne
    | cons q rest =>
      have hq : q ∈ matchedTo (selectedOf members) payments k := by
        rw [hmt]
        exact List.mem_cons_self _ _
      unfold matchedTo at hq
      rcases List.mem_append.mp hq with hq1 | hq2
      · rcases List.mem_filter.mp hq1 with ⟨-, hbeq⟩
        have hEx : exactIdx (selectedOf members) q = some k := eq_of_beq hbeq
        unfold exactIdx at hEx
        cases hsid : q.studentID with
        | none =>
          rw [hsid] at hEx
          simp only [Option.none_bind] at hEx
          exact Option.noConfusion hEx
        | some sid =>
          rw [hsid] at hEx
          simp only [Option.some_bind] at hEx
          obtain ⟨hlt, -, -⟩ := List.findIdx?_eq_some_iff_getElem.mp hEx
          exact ⟨_, List.getElem?_eq_getElem hlt⟩
      · rcases List.mem_filter.mp hq2 with ⟨-, hbeq⟩
        have hFz : fuzzyIdx (selectedOf members) q = some k := eq_of_beq hbeq
        have hlt : k < (selectedOf members).length := by
          unfold fuzzyIdx at hFz
          by_cases hex : (exactIdx (selectedOf members) q).isSome = true
          · rw [if_pos hex] at hFz
            exact Option.noConfusion hFz
          · rw [if_neg hex] at hFz
            exact fuzzyNameIdx_lt _ _ k hFz
        exact ⟨_, List.getElem?_eq_getElem hlt⟩
  obtain ⟨a0, ha0⟩ := hkex
  rw [reconcile_selected_getElem?, ha0]
  show some (finalAccount (selectedOf members) payments k a0).paymentDate = some p.paymentDate
  show some (match (matchedTo (selectedOf members) payments k).getLast? with
    | none => none
    | some q => q.paymentDate) = some p.paymentDate
  rw [hlast]

/-- Witness for C9: two exact-pass payments for the same payer, the second
processed one dated earlier (2024-01-15) than the first (2024-05-05); the
final PaymentDate is the last-processed 2024-01-15, not the chronologically
latest. -/
theorem C9_witness :
    (matchedTo (selectedOf [mA]) [pPos, pEarly] 0).getLast? = some pEarly ∧
    pEarly.paymentDate = some "2024-01-15" ∧ pPos.paymentDate = some "2024-05-05" ∧
    ((reconcile [mA] [pPos, pEarly]).selected[0]?).map (fun a => a.paymentDate) =
      some pEarly.paymentDate :=
  ⟨rfl, rfl, rfl, C9_last_payment_date [mA] [pPos, pEarly] 0 pEarly rfl⟩

/-- C10: when two obligated payers share a StudentID, every payment carrying
that StudentID exact-matches the first such payer row (the `findIdx?`/first
`match.index[0]` row); a later duplicate row receives no exact-pass payment
at all, so its final PaidAmount comes only from fuzzy-name matches; the
fuzzy pass likewise always targets the first row bearing the chosen
normalised name. -/
theorem C10_duplicate_first_wins (members : List Member) (payments : List Payment)
    (sid : String) (j0 k : Nat) (ak : Account)
    (hj0 : (selectedOf members).findIdx? (fun a => a.studentID == sid) = some j0)
    (hk : (selectedOf members)[k]? = some ak)
    (hdup : ak.studentID = sid) (hne : k ≠ j0) :
    (∀ p : Payment, p.studentID = some sid → exactIdx (selectedOf members) p = some j0) ∧
    payments.filter (fun p => exactIdx (selectedOf members) p == some k) = [] ∧
    ((reconcile members payments).selected[k]?).map (fun a => a.paidAmount) =
      some (amountSum (payments.filter
        (fun p => fuzzyIdx (selectedOf members) p == some k))) := by
  have h1 : ∀ p : Payment, p.studentID = some sid →
      exactIdx (selectedOf members) p = some j0 := by
    intro p hp
    unfold exactIdx
    rw [hp]
    simp only [Option.some_bind]
    exact hj0
  have h2 : ∀ p : Payment, (exactIdx (selectedOf members) p == some k) = false := by
    intro p
    cases hei : exactIdx (selectedOf members) p with
    | none => rfl
    | some j =>
      by_cases hjk : j = k
      · exfalso
        rw [hjk] at hei
        unfold exactIdx at hei
        cases hp : p.studentID with
        | none =>
          rw [hp] at hei
          simp only [Option.none_bind] at hei
          exact Option.noConfusion hei
        | some psid =>
          rw [hp] at hei
          simp only [Option.some_bind] at hei
          obtain ⟨hlt, hpk, -⟩ := List.findIdx?_eq_some_iff_getElem.mp hei
          have hak : (selectedOf members)[k] = ak := by
            have h5 := hk
            rw [List.getElem?_eq_getElem hlt] at h5
            exact Option.some.inj h5
          have hpsid : psid = sid := by
            rw [← hdup, ← hak]
            exact (eq_of_beq hpk).symm
          rw [hpsid, hj0] at hei
          exact hne (Option.some.inj hei).symm
      · simp [hjk]
  have h2' : payments.filter (fun p => exactIdx (selectedOf members) p == some k) = [] := by
    rw [List.filter_eq_nil_iff]
    intro p hp
    intro hcontra
    rw [h2 p] at hcontra
    exact Bool.false_ne_true hcontra
  refine ⟨h1, h2', ?_⟩
  rw [reconcile_selected_getElem?, hk]
  show some (finalAccount (selectedOf members) payments k ak).paidAmount = _
  show some (amountSum (matchedTo (selectedOf members) payments k)) = _
  unfold matchedTo
  rw [h2', List.nil_append]

/-- Witness for C10: two obligated payers both with StudentID `S1`; the first
row is the exact-match target, and the later duplicate's exact-pass payment
set is empty. -/
theorem C10_witness :
    (selectedOf [mA, mA2]).findIdx? (fun a => a.studentID == "S1") = some 0 ∧
    (selectedOf [mA, mA2])[1]? = some (initAccount mA2) ∧
    (initAccount mA2).studentID = "S1" ∧
    [pPos].filter (fun p => exactIdx (selectedOf [mA, mA2]) p == some 1) = [] :=
  ⟨rfl, rfl, rfl,
    (C10_duplicate_first_wins [mA, mA2] [pPos] "S1" 0 1 (initAccount mA2) rfl rfl rfl
      (by decide)).2.1⟩

end NTU
